import Mathlib

set_option maxRecDepth 4000

namespace Jarvis

/-- Message author kinds: the `type` field of `ChatMessage` in `src/src/app/page.tsx`. -/
inductive MsgType where
  | user
  | agent
  | system
deriving DecidableEq, Repr

/-- Candidate agent offered for staffing a project (interface `CandidateAgent`
in `src/src/app/components/AgentCandidateCard.tsx`). -/
structure CandidateAgent where
  name : String
  title : String
  department : String
  skills : List String
  description : String
deriving DecidableEq, Repr

/-- One step of a project plan (interface `PlanStep` in `page.tsx`). -/
structure PlanStep where
  name : String
  description : String
  responsible_participants : List String
deriving DecidableEq, Repr

/-- Chat message (interface `ChatMessage` in `page.tsx`).
`isCandidateSelection` models `messageSubType === 'candidate_selection'`, the only
subtype occurring in the source.  Display timestamps (produced by
`toLocaleTimeString()`) are presentation-only wall-clock strings and are modelled
as `none` throughout. -/
structure ChatMessage where
  id : String
  type : MsgType
  text : String
  timestamp : Option String := none
  isCandidateSelection : Bool := false
  candidates : Option (List CandidateAgent) := none
  projectId : Option String := none
  isLoadingPlaceholder : Bool := false
  promptIssued : Option Bool := none
deriving DecidableEq, Repr

/-- Project record (interface `Project` in `page.tsx`). -/
structure Project where
  id : String
  name : String
  owner : Option String := none
  participants : Option (List String) := none
  objective : Option String := none
  description : Option String := none
  plan_steps : Option (List PlanStep) := none
  status : Option String := none
  created_at : Option String := none
deriving DecidableEq, Repr

/-- An AI agent (interface `Agent` in `page.tsx`). -/
structure Agent where
  id : String
  name : String
deriving DecidableEq, Repr

/-! ## Progress indicator (`displayLoadingIndicator` / `removeLoadingIndicator`) -/

/-- The fixed cycling status strings (`projectPlanningMessages` in `page.tsx`). -/
def projectPlanningMessages : List String :=
  [ "Looking through past projects..."
  , "Searching for suitable approaches..."
  , "Analyzing project requirements..."
  , "Generating project plan..."
  , "Finalizing project structure..." ]

/-- State owned by the loading-indicator subsystem: the chat message list and the
single cycling interval (`loadingMessageIntervalRef`), modelled as the id of the
placeholder it rewrites together with the index of the status string the next tick
will display.  `nextId` models the id generator (`Date.now()` plus random suffix);
the source builds ids from the wall clock, the model uses a counter. -/
structure LoadState where
  messages : List ChatMessage
  interval : Option (String × Nat) := none
  nextId : Nat := 0
deriving DecidableEq, Repr

/-- The index of the status string the first interval tick will display, as
computed by `displayLoadingIndicator`: `index` starts at `0`; a truthy
`initialMessageOverride` found in the list sets `index = (found + 1) % len`;
a missing override sets `index = 1`; a truthy override that is not in the list
leaves `index = 0`. -/
def firstTickIndex (override : Option String) : Nat :=
  match override with
  | some o =>
    if o = "" then 1
    else
      match projectPlanningMessages.findIdx? (fun m => m = o) with
      | some i => (i + 1) % projectPlanningMessages.length
      | none => 0
  | none => 1

/-- `displayLoadingIndicator(isProjectPlanning, initialMessageOverride)` from
`page.tsx`: appends a placeholder chat message and, when `isProjectPlanning`,
clears any existing cycling interval and arms a new one on the fresh placeholder.
Returns the new state together with the placeholder id. -/
def displayLoadingIndicator (isProjectPlanning : Bool) (override : Option String)
    (st : LoadState) : LoadState × String :=
  let newLoadingId := "loading-" ++ toString st.nextId
  let text :=
    if isProjectPlanning then
      match override with
      | some o => if o = "" then projectPlanningMessages.getD 0 "" else o
      | none => projectPlanningMessages.getD 0 ""
    else "Thinking..."
  let placeholderMessage : ChatMessage :=
    { id := newLoadingId, type := .agent, text := text, isLoadingPlaceholder := true }
  let msgs := st.messages ++ [placeholderMessage]
  let interval :=
    if isProjectPlanning then some (newLoadingId, firstTickIndex override)
    else st.interval
  ({ messages := msgs, interval := interval, nextId := st.nextId + 1 }, newLoadingId)

/-- One firing of the cycling interval armed by `displayLoadingIndicator`:
rewrite the placeholder's text to `projectPlanningMessages[index]` and advance
`index` to `(index + 1) % length`. -/
def tickLoading (st : LoadState) : LoadState :=
  match st.interval with
  | none => st
  | some (mid, i) =>
    { st with
      messages := st.messages.map (fun m =>
        if m.id = mid then { m with text := projectPlanningMessages.getD i "" } else m)
      interval := some (mid, (i + 1) % projectPlanningMessages.length) }

/-- `removeLoadingIndicator(idToRemove)` from `page.tsx`: when the id is truthy,
drop every message with that id; unconditionally clear the cycling interval. -/
def removeLoadingIndicator (idToRemove : Option String) (st : LoadState) : LoadState :=
  { messages :=
      match idToRemove with
      | some i => if i = "" then st.messages else st.messages.filter (fun m => m.id ≠ i)
      | none => st.messages
    interval := none
    nextId := st.nextId }

/-! ## Character-level helpers for the Command Gateway's response classification -/

/-- JavaScript `String.prototype.trim`, restricted to the common whitespace
characters (space, tab, newline, carriage return). -/
def isWsChar (c : Char) : Bool := c = ' ' || c = '\t' || c = '\n' || c = '\r'

/-- Trim whitespace from both ends (`jsonString.trim()` in `_postMessageToAgent`). -/
def trimChars (l : List Char) : List Char :=
  ((l.dropWhile isWsChar).reverse.dropWhile isWsChar).reverse

/-- Index of the first occurrence of the two-character needle quote-colon, as
computed by `agentResponseText.indexOf("':")` in `_postMessageToAgent`; `none`
models JavaScript's `-1`. -/
def idxOfQC : List Char → Option Nat
  | [] => none
  | c :: rest =>
    if c = '\'' ∧ rest.head? = some ':' then some 0
    else (idxOfQC rest).map (· + 1)

/-- `true` when the list contains no occurrence of the quote-colon needle
entirely within it.  Reasoning helper for `idxOfQC`. -/
def qcFree : List Char → Bool
  | [] => true
  | c :: rest =>
    if c = '\'' ∧ rest.head? = some ':' then false else qcFree rest

/-- The literal part `project '` of the regex `/project '([^']*)'/`. -/
def projectLit : List Char := "project '".data

/-- Attempt to match the regex `/project '([^']*)'/` at the start of `s`: the
literal `project '`, then the capture `[^']*` (the maximal run of non-quote
characters), then a closing quote. -/
def tryProjectAt (s : List Char) : Option (List Char) :=
  if projectLit.isPrefixOf s then
    let rest := s.drop projectLit.length
    if rest.any (fun c => c = '\'') then some (rest.takeWhile (fun c => c ≠ '\'')) else none
  else none

/-- First match of the regex `/project '([^']*)'/` over the whole string
(`agentResponseText.match(/project '([^']*)'/)` in `_postMessageToAgent`),
returning the capture group. -/
def findProjectCapture : List Char → Option (List Char)
  | [] => none
  | c :: rest =>
    match tryProjectAt (c :: rest) with
    | some cap => some cap
    | none => findProjectCapture rest

/-! ## Command Gateway (`_postMessageToAgent`) -/

/-- The structured-payload marker tested by `_postMessageToAgent`
(`candidatePrefix` in the source). -/
def candidateMarker : String := "Here are the best-suited candidates for your project '"

/-- Classification of a successful agent reply string by `_postMessageToAgent`
(`page.tsx` lines 897-928).  `parse` stands for `JSON.parse` specialised to a
candidate array — the JavaScript runtime's parser, external to this repository:
`some` models a successful parse of the trimmed payload, `none` a thrown
`SyntaxError`.  `nid` feeds the id generator (the source uses `Date.now()`). -/
def classifyAgentResponse (parse : List Char → Option (List CandidateAgent))
    (resp : String) (nid : Nat) : ChatMessage :=
  if candidateMarker.data.isPrefixOf resp.data then
    let endIdx : Nat :=
      match idxOfQC resp.data with
      | some i => i + 2
      | none => 1          -- JavaScript: indexOf returns -1, so endOfPrefix = -1 + 2 = 1
    let jsonString := trimChars (resp.data.drop endIdx)
    let currentProjectId := (findProjectCapture resp.data).map (fun l => String.mk l)
    let introText := String.mk (resp.data.take endIdx)
    match parse jsonString with
    | some candidatesData =>
      { id := toString nid ++ "-agent-candidates"
        type := .agent
        text := introText
        isCandidateSelection := true
        candidates := some candidatesData
        projectId := currentProjectId
        promptIssued := some false }
    | none =>
      { id := toString nid ++ "-agent-parse-error", type := .agent, text := resp }
  else
    { id := toString nid ++ "-agent", type := .agent, text := resp }

/-- A meeting as displayed in the sidebar (interface `Meeting` in `page.tsx`);
attendees are `(email, displayName?)` pairs. -/
structure Meeting where
  id : String
  title : String
  dateTime : String
  startTimeISO : Option String := none
  endTimeISO : Option String := none
  attendees : Option (List (String × Option String)) := none
  organizerEmail : Option String := none
  description : Option String := none
deriving DecidableEq, Repr

/-- A task as displayed in the sidebar (interface `Task` in `page.tsx`). -/
structure Task where
  id : String
  title : String
  description : Option String := none
  assigned_to : Option String := none
  due_date : Option String := none
  priority : Option String := none
  project_id : Option String := none
deriving DecidableEq, Repr

/-- The per-session component state of `Home` that the session-level handlers
touch: selected agent, socket room, chat, data caches and input text.
`socketPresent` models `socket !== null`; `nextId` models the id generator. -/
structure SessionState where
  selectedAgent : Option Agent := none
  currentAgentRoom : Option String := none
  socketPresent : Bool := true
  messages : List ChatMessage := []
  meetings : List Meeting := []
  projects : List Project := []
  tasks : List Task := []
  inputText : String := ""
  nextId : Nat := 0
deriving DecidableEq, Repr

/-- Outcome of the `POST /send_message` round trip as seen by
`_postMessageToAgent` after the `fetch`: a transport/HTTP failure (carrying the
thrown error's message), a payload with an `error` field, or a payload with an
optional `response` string. -/
inductive GatewayReply where
  | transportError (errorMessage : String)
  | appError (error : String)
  | ok (response : Option String)
deriving DecidableEq, Repr

/-- A `POST /send_message` request body (`{node_id, message, sender_id}`). -/
structure SendRequest where
  node_id : String
  message : String
  sender_id : String
deriving DecidableEq, Repr

/-- `_postMessageToAgent(messageText)` from `page.tsx` (lines 878-935): with no
active agent, append one system error message and send nothing; otherwise send
the command and classify the reply.  The network outcome is the `reply`
parameter; the function returns the updated state and the list of requests
actually sent. -/
def postMessageToAgent (parse : List Char → Option (List CandidateAgent))
    (messageText : String) (reply : GatewayReply) (st : SessionState) :
    SessionState × List SendRequest :=
  match st.selectedAgent with
  | none =>
    ({ st with
        messages := st.messages ++
          [{ id := toString st.nextId, type := .system,
             text := "Error: No agent selected to send the command." }]
        nextId := st.nextId + 1 }, [])
  | some agent =>
    let req : SendRequest := { node_id := agent.id, message := messageText, sender_id := agent.id }
    let st' :=
      match reply with
      | .transportError e =>
        { st with
            messages := st.messages ++
              [{ id := toString st.nextId ++ "-error", type := .system, text := e }]
            nextId := st.nextId + 1 }
      | .appError e =>
        { st with
            messages := st.messages ++
              [{ id := toString st.nextId ++ "-error", type := .system,
                 text := "Agent error: " ++ e }]
            nextId := st.nextId + 1 }
      | .ok response =>
        let agentResponseText :=
          match response with
          | some s => if s = "" then "(Agent processed the command)" else s
          | none => "(Agent processed the command)"
        { st with
            messages := st.messages ++ [classifyAgentResponse parse agentResponseText st.nextId]
            nextId := st.nextId + 1 }
    (st', [req])

/-! ## Session Orchestrator (`handleAgentSelect`) -/

/-- An outbound socket room emission (`join_room` / `leave_room`). -/
inductive RoomEvent where
  | joinRoom (room : String)
  | leaveRoom (room : String)
deriving DecidableEq, Repr

/-- JavaScript `hay.includes(needle)`: `needle` occurs contiguously in `hay`. -/
def hasSub (needle : List Char) : List Char → Bool
  | [] => needle.isEmpty
  | c :: rest => needle.isPrefixOf (c :: rest) || hasSub needle rest

/-- The predicate used when deciding whether to keep the existing chat on
deselection: a system message whose text includes `Error`. -/
def isSystemErrorMsg (m : ChatMessage) : Bool :=
  decide (m.type = MsgType.system) && hasSub "Error".data m.text.data

/-- `handleAgentSelect(agent, isInitialSelect)` from `page.tsx` (lines 710-770).
Returns the updated session state and the socket room emissions, in emission
order.  The scoped refetches (`fetchMeetings`/`fetchProjects`/`fetchTasks`) are
asynchronous reads whose results arrive later; their cache updates are outside
the room-membership claims and are not modelled here. -/
def handleAgentSelect (agent? : Option Agent) (isInitialSelect : Bool)
    (st : SessionState) : SessionState × List RoomEvent :=
  match agent? with
  | none =>
    let clearMsgs : Bool :=
      !isInitialSelect ||
        (decide (st.messages.length > 0) && !(st.messages.any isSystemErrorMsg))
    let st1 := { st with
      selectedAgent := none
      messages := if clearMsgs then [] else st.messages
      meetings := [], projects := [], tasks := [] }
    match st.socketPresent, st.currentAgentRoom with
    | true, some r =>
      if r = "" then (st1, [])
      else ({ st1 with currentAgentRoom := none }, [.leaveRoom r])
    | true, none => (st1, [])
    | false, _ => (st1, [])
  | some agent =>
    if st.selectedAgent.any (fun a => a.id == agent.id) && !isInitialSelect then (st, [])
    else
      let msgs1 :=
        if !isInitialSelect then
          [({ id := toString st.nextId, type := MsgType.system,
              text := "Switched context to " ++ agent.name } : ChatMessage)]
        else if st.messages.isEmpty then
          [({ id := toString st.nextId, type := MsgType.system,
              text := "Context set to " ++ agent.name } : ChatMessage)]
        else st.messages
      let st1 := { st with
        selectedAgent := some agent
        messages := msgs1
        nextId := st.nextId + 1 }
      let roomAndEvs : Option String × List RoomEvent :=
        if st.socketPresent then
          let leaveEvs :=
            match st.currentAgentRoom with
            | some r => if r ≠ "" ∧ r ≠ agent.id then [RoomEvent.leaveRoom r] else []
            | none => []
          if st.currentAgentRoom ≠ some agent.id then
            (some agent.id, leaveEvs ++ [RoomEvent.joinRoom agent.id])
          else (st.currentAgentRoom, leaveEvs)
        else (st.currentAgentRoom, [])
      ({ st1 with
          currentAgentRoom := roomAndEvs.1
          inputText := if !isInitialSelect then "" else st.inputText }, roomAndEvs.2)

/-- Apply a sequence of `handleAgentSelect` calls, concatenating the emitted
room events. -/
def runSelects : List (Option Agent × Bool) → SessionState → SessionState × List RoomEvent
  | [], st => (st, [])
  | c :: cs, st =>
    ((runSelects cs (handleAgentSelect c.1 c.2 st).1).1,
     (handleAgentSelect c.1 c.2 st).2 ++ (runSelects cs (handleAgentSelect c.1 c.2 st).1).2)

/-- The set of rooms currently joined, as a list, after an event. -/
def roomsApply (rs : List String) : RoomEvent → List String
  | .joinRoom r => rs ++ [r]
  | .leaveRoom r => rs.erase r

/-- Rooms joined after a trace of events starting from `init`. -/
def roomsFrom (init : List String) (evs : List RoomEvent) : List String :=
  evs.foldl roomsApply init

/-! ## Projects fetch normalization (`fetchProjects`) -/

/-- Raw array-shaped project record from `GET /projects` (interface
`ApiProject` in `page.tsx`): the id may be missing. -/
structure ApiProject where
  id : Option String := none
  name : String
  owner : Option String := none
  participants : Option (List String) := none
  objective : Option String := none
  description : Option String := none
  plan_steps : Option (List PlanStep) := none
  status : Option String := none
  created_at : Option String := none
deriving DecidableEq, Repr

/-- Raw map-shaped project record from `GET /projects` (interface
`ApiProjectData` in `page.tsx`).  TypeScript declares `name: string`, but the
code guards with `projectData.name || projectId`, so a missing name is
representable. -/
structure ApiProjectData where
  name : Option String := none
  owner : Option String := none
  participants : Option (List String) := none
  objective : Option String := none
  description : Option String := none
  plan_steps : Option (List PlanStep) := none
  status : Option String := none
  created_at : Option String := none
deriving DecidableEq, Repr

/-- The two response shapes `GET /projects?agent_id=…` may return: a project
array, or a map from project id to project data (modelled as an association
list in the backend's key order). -/
inductive ProjectsResponse where
  | arr (projects : List ApiProject)
  | map (entries : List (String × ApiProjectData))
deriving DecidableEq, Repr

/-- JavaScript `a || b` for an optional string `a` and string `b`: an absent or
empty (falsy) string falls back to `b`. -/
def strOr (o : Option String) (d : String) : String :=
  match o with
  | some s => if s = "" then d else s
  | none => d

/-- JavaScript `a || b` where both sides are optional strings
(`p.description || p.objective`). -/
def strOrElse (o fb : Option String) : Option String :=
  match o with
  | some s => if s = "" then fb else some s
  | none => fb

/-- The response normalization performed by `fetchProjects` (`page.tsx` lines
610-658): both response shapes become one `Project` array; missing
`participants`/`plan_steps` default to `[]`; in the array shape a missing (or
falsy) `id` defaults to `name`, in the map shape a missing (or falsy) `name`
defaults to the key, which becomes the `id`. -/
def normalizeProjects : ProjectsResponse → List Project
  | .arr ps => ps.map (fun p =>
      { id := strOr p.id p.name
        name := p.name
        owner := p.owner
        participants := some (p.participants.getD [])
        objective := p.objective
        description := strOrElse p.description p.objective
        plan_steps := some (p.plan_steps.getD [])
        status := p.status
        created_at := p.created_at })
  | .map es => es.map (fun e =>
      { id := e.1
        name := strOr e.2.name e.1
        owner := e.2.owner
        participants := some (e.2.participants.getD [])
        objective := e.2.objective
        description := strOrElse e.2.description e.2.objective
        plan_steps := some (e.2.plan_steps.getD [])
        status := e.2.status
        created_at := e.2.created_at })

/-! ## Candidate Negotiation Engine
(`promptForNextStep`, `handleCandidateAccept`, `handleCandidateReject`) -/

/-- State touched by the candidate negotiation engine: the chat, the
per-message processed set (`promptedCandidateMessageIdsRef`), the per-project
cooldown set (`recentlyPromptedProjectIds`), the scheduled cooldown-eviction
timeouts, and the projects cache read by `promptForNextStep`. -/
structure NState where
  messages : List ChatMessage
  promptedIds : List String := []
  cooldown : List String := []
  pendingExpiries : List String := []
  projects : List Project := []
  nextId : Nat := 0
deriving DecidableEq, Repr

/-- The raw prompt text built by `promptForNextStep(projectId)` before HTML
formatting. -/
def nextStepRawText (pjs : List Project) (pid : String) : String :=
  let projectName :=
    match pjs.find? (fun p => p.id == pid) with
    | some p => p.name
    | none => pid
  "All initial candidates for project '" ++ projectName ++
    "' have been processed.\nWhat would you like to do next?\n\n1. Add another participant by typing: `add [Participant Name] to project " ++
    pid ++ "`\n2. Finalize project planning by typing: `finalize project " ++ pid ++ "`"

/-- The newline replacement `.replace(/\n/g, '<br />')` in `promptForNextStep`. -/
def brReplace : List Char → List Char
  | [] => []
  | c :: r =>
    if c = '\n' then "<br />".data ++ brReplace r else c :: brReplace r

/-- The backtick character (code point 96). -/
def backtickChar : Char := Char.ofNat 96

/-- One-pass state machine equivalent to the global JavaScript replacement of
backtick-delimited nonempty runs by `<code>…</code>` in `promptForNextStep`:
`some buf` means a potential opening backtick has been seen and `buf` collected
since; a closing backtick with a nonempty buffer emits the `<code>` wrapper, a
backtick with an empty buffer is emitted literally (the new backtick starts the
next potential match), and an unclosed opening backtick is emitted literally at
the end. -/
def codeScan : Option (List Char) → List Char → List Char
  | none, [] => []
  | none, c :: r =>
    if c = backtickChar then codeScan (some []) r else c :: codeScan none r
  | some buf, [] => backtickChar :: buf
  | some buf, c :: r =>
    if c = backtickChar then
      if buf.isEmpty then backtickChar :: codeScan (some []) r
      else "<code>".data ++ buf ++ "</code>".data ++ codeScan none r
    else codeScan (some (buf ++ [c])) r

/-- The full formatting pipeline of `promptForNextStep`. -/
def formatNextStep (l : List Char) : List Char := codeScan none (brReplace l)

/-- The formatted text of the "next step" prompt for `pid`. -/
def nextStepText (pjs : List Project) (pid : String) : String :=
  String.mk (formatNextStep (nextStepRawText pjs pid).data)

/-- The "next step" chat message appended by `promptForNextStep` — note the
source emits it with `type: 'agent'`.  The random id suffix is omitted; ids are
outside the prompt-counting claims. -/
def nextStepMessage (pjs : List Project) (pid : String) (nid : Nat) : ChatMessage :=
  { id := toString nid ++ "-" ++ pid ++ "-next-step"
    type := .agent
    text := nextStepText pjs pid }

/-- The guard `msg.id === messageId && msg.messageSubType === 'candidate_selection'
&& msg.candidates` selecting the messages the accept/reject map transforms. -/
def isTargetMsg (messageId : String) (m : ChatMessage) : Bool :=
  m.id == messageId && m.isCandidateSelection && m.candidates.isSome

/-- Accumulator threaded through the accept/reject `setMessages` map: the
processed set, the cooldown set, the queued `promptForNextStep` appends, the
scheduled cooldown evictions, the projects cache and the id counter. -/
structure ActionAcc where
  ref : List String
  cooldown : List String
  prompts : List ChatMessage
  expiries : List String
  projects : List Project
  nid : Nat
deriving DecidableEq, Repr

/-- Processing of a single chat message inside the accept/reject `setMessages`
map (`page.tsx` lines 1004-1031 and 1055-1082): remove the named candidate; on
exhaustion consult the processed set, then the cooldown, queue the prompt and
the cooldown eviction when both miss, and set `promptIssued` whenever the
processed set missed. -/
def candStep (candidateName pid messageId : String) (m : ChatMessage) (a : ActionAcc) :
    ChatMessage × ActionAcc :=
  match m.candidates with
  | some l =>
    if m.id == messageId && m.isCandidateSelection then
      let updatedCandidates := l.filter (fun c => c.name ≠ candidateName)
      if updatedCandidates = [] then
        if messageId ∈ a.ref then
          ({ m with candidates := some [] }, a)
        else
          let a1 := { a with ref := messageId :: a.ref }
          if pid ≠ "" ∧ pid ∉ a1.cooldown then
            ({ m with candidates := some [], promptIssued := some true },
             { a1 with
                cooldown := pid :: a1.cooldown
                prompts := a1.prompts ++ [nextStepMessage a1.projects pid a1.nid]
                expiries := a1.expiries ++ [pid]
                nid := a1.nid + 1 })
          else
            ({ m with candidates := some [], promptIssued := some true }, a1)
      else ({ m with candidates := some updatedCandidates }, a)
    else (m, a)
  | none => (m, a)

/-- The accept/reject `setMessages` map over the whole chat, threading the
accumulator left to right. -/
def mapMsgs (candidateName pid messageId : String) :
    List ChatMessage → ActionAcc → List ChatMessage × ActionAcc
  | [], a => ([], a)
  | m :: rest, a =>
    ((candStep candidateName pid messageId m a).1
       :: (mapMsgs candidateName pid messageId rest (candStep candidateName pid messageId m a).2).1,
     (mapMsgs candidateName pid messageId rest (candStep candidateName pid messageId m a).2).2)

/-- The user-facing log entry appended at the top of `handleCandidateAccept`
(`Action: Adding …`) respectively `handleCandidateReject` (`Action: Rejecting …`). -/
def actionUserMsg (isAccept : Bool) (candidateName pid : String) (nid : Nat) : ChatMessage :=
  { id := toString nid ++ (if isAccept then "-user-accept" else "-user-reject")
    type := .user
    text :=
      if isAccept then "Action: Adding " ++ candidateName ++ " to project " ++ pid ++ "."
      else "Action: Rejecting " ++ candidateName ++ " for project " ++ pid ++ "." }

/-- The accumulator at the start of the accept/reject `setMessages` map. -/
def initAcc (st : NState) : ActionAcc :=
  { ref := st.promptedIds, cooldown := st.cooldown, prompts := [], expiries := []
    projects := st.projects, nid := st.nextId + 1 }

/-- The shared body of `handleCandidateAccept` and `handleCandidateReject`
(`page.tsx` lines 984-1034 and 1036-1085; the two handlers differ only in the
user-facing action text and the forwarded remote command).  `agentSelected`
models `selectedAgent !== null`.  Step order as in the source: the guard, the
user-facing action message, the awaited remote command (whose reply handling is
`postMessageToAgent` and outside the negotiation-engine state), then the
`setMessages` map; the `promptForNextStep` appends queued during the map land
after the mapped list. -/
def runCandidateAction (isAccept : Bool) (agentSelected : Bool)
    (candidateName pid messageId : String) (st : NState) : NState :=
  if ¬agentSelected ∨ pid = "" then
    { st with
        messages := st.messages ++
          [{ id := toString st.nextId, type := .system,
             text := "Error: Agent or Project ID missing for this action." }]
        nextId := st.nextId + 1 }
  else
    let msgs1 := st.messages ++ [actionUserMsg isAccept candidateName pid st.nextId]
    let out := mapMsgs candidateName pid messageId msgs1 (initAcc st)
    { messages := out.1 ++ out.2.prompts
      promptedIds := out.2.ref
      cooldown := out.2.cooldown
      pendingExpiries := st.pendingExpiries ++ out.2.expiries
      projects := st.projects
      nextId := out.2.nid }

/-- Firing of one scheduled cooldown-eviction timeout for `pid` (the
`setTimeout` callback inside the handlers): remove `pid` from
`recentlyPromptedProjectIds` and consume the timer. -/
def runCooldownExpiry (pid : String) (st : NState) : NState :=
  { st with
      cooldown := st.cooldown.filter (fun p => p ≠ pid)
      pendingExpiries := st.pendingExpiries.erase pid }

/-- Apply a sequence of accept/reject actions `(isAccept, candidateName)`
against one message and project, with an active agent. -/
def applyCandidateActions (pid messageId : String)
    (acts : List (Bool × String)) (st : NState) : NState :=
  acts.foldl (fun s ab => runCandidateAction ab.1 true ab.2 pid messageId s) st

/-- A chat message equal in kind and text to the "next step" prompt for `pid`
(relative to the `projects` cache the prompt reads the display name from). -/
def isNextStepMsg (pjs : List Project) (pid : String) (m : ChatMessage) : Bool :=
  decide (m.type = MsgType.agent) && m.text == nextStepText pjs pid

/-- Number of "next step" prompt messages for `pid` in a chat. -/
def countNextStep (pjs : List Project) (pid : String) (msgs : List ChatMessage) : Nat :=
  msgs.countP (isNextStepMsg pjs pid)

/-! # Theorems -/

/-! ## Claim C9: idempotence of the progress indicator's hide -/

/-- Claim C9: the progress indicator's `hide` is idempotent: hiding the same id
twice removes at most one message in total (given that message ids are unique,
i.e. at most one message bears the id), hiding an id whose message is already
absent leaves the message list unchanged, and every call — whatever its
argument — unconditionally clears the cycling timer. -/
theorem C9_hide_idempotent (st : LoadState) (i : String) :
    (removeLoadingIndicator (some i) (removeLoadingIndicator (some i) st)).messages
      = (removeLoadingIndicator (some i) st).messages
    ∧ (∀ o, (removeLoadingIndicator o st).interval = none)
    ∧ (st.messages.countP (fun m => decide (m.id = i)) ≤ 1 →
        st.messages.length ≤
          (removeLoadingIndicator (some i) (removeLoadingIndicator (some i) st)).messages.length + 1)
    ∧ (st.messages.countP (fun m => decide (m.id = i)) = 0 →
        (removeLoadingIndicator (some i) st).messages = st.messages) := by
  refine ⟨?_, ?_, ?_, ?_⟩
  · by_cases hi : i = ""
    · simp [removeLoadingIndicator, hi]
    · simp only [removeLoadingIndicator, if_neg hi, List.filter_filter]
      simp only [Bool.and_self]
  · intro o
    cases o <;> rfl
  · intro hcount
    by_cases hi : i = ""
    · simp only [removeLoadingIndicator, if_pos hi]
      exact Nat.le_succ _
    · simp only [removeLoadingIndicator, if_neg hi, List.filter_filter, Bool.and_self]
      have hlen : (st.messages.filter (fun m => decide (m.id ≠ i))).length
          = st.messages.countP (fun m => decide (m.id ≠ i)) :=
        (List.countP_eq_length_filter _ _).symm
      have hsplit := List.length_eq_countP_add_countP (fun m => decide (m.id ≠ i)) st.messages
      have hcongr : st.messages.countP (fun a => decide ¬(decide (a.id ≠ i) = true))
          = st.messages.countP (fun m => decide (m.id = i)) := by
        refine List.countP_congr ?_
        intro a _
        by_cases h : a.id = i <;> simp [h]
      rw [hlen]
      omega
  · intro hzero
    by_cases hi : i = ""
    · simp [removeLoadingIndicator, hi]
    · simp only [removeLoadingIndicator, if_neg hi]
      refine List.filter_eq_self.mpr ?_
      intro a ha
      have := (List.countP_eq_zero.mp hzero) a ha
      simpa using fun h => this (by simp [h])

/-- Concrete loading state for the C9 witness. -/
def c9WitState : LoadState :=
  { messages := [{ id := "loading-1", type := .agent, text := "Thinking...",
                   isLoadingPlaceholder := true }]
    interval := some ("loading-1", 1)
    nextId := 2 }

/-- Witness for C9 at a concrete state and id, discharging the uniqueness and
absence hypotheses. -/
theorem C9_hide_idempotent_witness :
    c9WitState.messages.length ≤
      (removeLoadingIndicator (some "loading-1")
        (removeLoadingIndicator (some "loading-1") c9WitState)).messages.length + 1
    ∧ (removeLoadingIndicator (some "zzz") c9WitState).messages = c9WitState.messages :=
  ⟨(C9_hide_idempotent c9WitState "loading-1").2.2.1 (by decide),
   (C9_hide_idempotent c9WitState "zzz").2.2.2 (by decide)⟩

/-! ## Claim C10: missing-context guard of the Command Gateway -/

/-- Claim C10: when a command is attempted with no active agent, exactly one
system message reporting the missing agent is appended, no request is sent to
the agent service, and nothing else in the session state changes (the resulting
state differs from the input state only in the appended message and the id
counter). -/
theorem C10_missing_agent_guard (parse : List Char → Option (List CandidateAgent))
    (messageText : String) (reply : GatewayReply) (st : SessionState)
    (h : st.selectedAgent = none) :
    postMessageToAgent parse messageText reply st =
      ({ st with
          messages := st.messages ++
            [{ id := toString st.nextId, type := .system,
               text := "Error: No agent selected to send the command." }]
          nextId := st.nextId + 1 }, []) := by
  unfold postMessageToAgent
  rw [h]

/-- Witness for C10 at a concrete input. -/
theorem C10_missing_agent_guard_witness :
    postMessageToAgent (fun _ => none) "plan X" (GatewayReply.ok (some "hi")) {} =
      ({ messages :=
          [{ id := "0", type := .system,
             text := "Error: No agent selected to send the command." }]
         nextId := 1 }, []) :=
  C10_missing_agent_guard (fun _ => none) "plan X" (GatewayReply.ok (some "hi")) {} rfl

/-! ## Claim C7: projects response normalization -/

/-- Forall₂ between a list and its image under a map. -/
lemma forall₂_map_self {α β : Type} (R : α → β → Prop) (f : α → β) :
    ∀ l : List α, (∀ a ∈ l, R a (f a)) → List.Forall₂ R l (l.map f)
  | [], _ => List.Forall₂.nil
  | a :: l, h =>
    List.Forall₂.cons (h a (List.mem_cons_self a l))
      (forall₂_map_self R f l (fun b hb => h b (List.mem_cons_of_mem a hb)))

/-- Field relations claim C7 asserts between a raw array-shaped record and its
normalized projection. -/
def ArrNormalized (p : ApiProject) (q : Project) : Prop :=
  q.participants = some (p.participants.getD [])
  ∧ q.plan_steps = some (p.plan_steps.getD [])
  ∧ q.name = p.name
  ∧ ((p.id = none ∨ p.id = some "") → q.id = p.name)
  ∧ (∀ s, p.id = some s → s ≠ "" → q.id = s)

/-- Field relations claim C7 asserts between a raw map-shaped entry and its
normalized projection. -/
def MapNormalized (e : String × ApiProjectData) (q : Project) : Prop :=
  q.participants = some (e.2.participants.getD [])
  ∧ q.plan_steps = some (e.2.plan_steps.getD [])
  ∧ q.id = e.1
  ∧ ((e.2.name = none ∨ e.2.name = some "") → q.name = e.1)
  ∧ (∀ s, e.2.name = some s → s ≠ "" → q.name = s)

/-- Claim C7: both projects-response shapes are normalized to a single array of
`Project` records, elementwise in order: missing `participants`/`plan_steps`
default to the empty list, a missing (falsy) `id` in the array shape defaults to
the record's `name`, and in the map shape the key becomes the `id` and a missing
(falsy) `name` defaults to the key. -/
theorem C7_projects_normalization :
    (∀ ps : List ApiProject,
      List.Forall₂ ArrNormalized ps (normalizeProjects (ProjectsResponse.arr ps)))
    ∧ (∀ es : List (String × ApiProjectData),
      List.Forall₂ MapNormalized es (normalizeProjects (ProjectsResponse.map es))) := by
  constructor
  · intro ps
    refine forall₂_map_self _ _ ps ?_
    intro p _
    refine ⟨rfl, rfl, rfl, ?_, ?_⟩
    · intro h
      rcases h with h | h <;> simp [strOr, h]
    · intro s hs hne
      simp [strOr, hs, hne]
  · intro es
    refine forall₂_map_self _ _ es ?_
    intro e _
    refine ⟨rfl, rfl, rfl, ?_, ?_⟩
    · intro h
      rcases h with h | h <;> simp [strOr, h]
    · intro s hs hne
      simp [strOr, hs, hne]

/-- Witness for C7 at concrete inputs, discharging the per-element hypotheses
of `ArrNormalized`/`MapNormalized`. -/
theorem C7_projects_normalization_witness :
    (normalizeProjects (ProjectsResponse.arr [{ name := "alpha" }])).map (fun q => q.id)
      = ["alpha"]
    ∧ (normalizeProjects (ProjectsResponse.map [("p1", { name := none })])).map (fun q => q.name)
      = ["p1"] := by
  have h1 := (C7_projects_normalization.1 [{ name := "alpha" }])
  have h2 := (C7_projects_normalization.2 [("p1", { name := none })])
  rcases h1 with _ | ⟨⟨_, _, _, hid, _⟩, _⟩
  rcases h2 with _ | ⟨⟨_, _, _, hname, _⟩, _⟩
  refine ⟨?_, ?_⟩
  · simp [normalizeProjects]
    exact hid (Or.inl rfl)
  · simp [normalizeProjects]
    exact hname (Or.inl rfl)

/-! ## Claim C8: first tick of the multi-step progress indicator -/

/-- Empty chat state used by the C8 counterexample. -/
def c8StartState : LoadState := { messages := [], interval := none, nextId := 0 }

/-- Counterexample to claim C8 as stated: starting the multi-step indicator with
an initial text that matches no entry of the status list makes the first tick
display the *first* entry (`index` stays `0` in `displayLoadingIndicator`), not
the second entry the claim asserts. -/
theorem C8_counterexample :
    (tickLoading (displayLoadingIndicator true (some "not a status") c8StartState).1).messages.getLast?.map
        (fun m => m.text) = some "Looking through past projects..."
    ∧ projectPlanningMessages.getD 1 "" = "Searching for suitable approaches..."
    ∧ ("Looking through past projects..." : String) ≠ "Searching for suitable approaches..." := by
  decide

/-- Claim C8 (amended): the first tick after `show` displays the entry at
`firstTickIndex`: the entry after the match when the initial text matches an
entry (wrapping around); the second entry when no initial text is given; and —
contrary to the claim as stated — the first entry when an initial text is given
that matches no entry. -/
theorem C8_first_tick_amended (st : LoadState) (o? : Option String) :
    (tickLoading (displayLoadingIndicator true o? st).1).messages.getLast?.map (fun m => m.text)
      = some (projectPlanningMessages.getD (firstTickIndex o?) "")
    ∧ (o? = none → firstTickIndex o? = 1)
    ∧ (∀ o i, o? = some o → o ≠ "" →
        projectPlanningMessages.findIdx? (fun m => m = o) = some i →
        firstTickIndex o? = (i + 1) % projectPlanningMessages.length)
    ∧ (∀ o, o? = some o → o ≠ "" →
        projectPlanningMessages.findIdx? (fun m => m = o) = none →
        firstTickIndex o? = 0) := by
  refine ⟨?_, ?_, ?_, ?_⟩
  · simp [displayLoadingIndicator, tickLoading]
  · intro h
    subst h
    rfl
  · intro o i ho hne hidx
    subst ho
    simp [firstTickIndex, hne, hidx]
  · intro o ho hne hidx
    subst ho
    simp [firstTickIndex, hne, hidx]

/-- Witness for C8 at a concrete input: an initial text matching the second
entry makes the first tick display the third entry. -/
theorem C8_first_tick_witness :
    (tickLoading (displayLoadingIndicator true
        (some "Searching for suitable approaches...") c8StartState).1).messages.getLast?.map
          (fun m => m.text)
      = some "Analyzing project requirements..."
    ∧ firstTickIndex (some "Searching for suitable approaches...") = 2 := by
  have h := C8_first_tick_amended c8StartState (some "Searching for suitable approaches...")
  refine ⟨?_, ?_⟩
  · rw [h.1]
    decide
  · have h2 := h.2.2.1 "Searching for suitable approaches..." 1 rfl (by decide) (by decide)
    simpa using h2

/-! ## Claim C3: classification of structured candidate-offer responses -/

lemma isPrefixOf_append_self : ∀ (xs ys : List Char), xs.isPrefixOf (xs ++ ys) = true
  | [], ys => by simp [List.isPrefixOf]
  | x :: xs, ys => by
    simp [List.isPrefixOf, isPrefixOf_append_self xs ys]

lemma qcFree_cons (c : Char) (l : List Char) :
    qcFree (c :: l) = if c = '\'' ∧ l.head? = some ':' then false else qcFree l := rfl

lemma idxOfQC_cons (c : Char) (l : List Char) :
    idxOfQC (c :: l) =
      if c = '\'' ∧ l.head? = some ':' then some 0 else (idxOfQC l).map (· + 1) := rfl

lemma qcFree_append_of_no_quote :
    ∀ (xs : List Char), (∀ c ∈ xs, c ≠ '\'') → ∀ (ys : List Char),
      qcFree (xs ++ ys) = qcFree ys
  | [], _, _ => rfl
  | x :: xs, h, ys => by
    have hx : x ≠ '\'' := h x (List.mem_cons_self x xs)
    rw [List.cons_append, qcFree_cons, if_neg (fun hcon => hx hcon.1)]
    exact qcFree_append_of_no_quote xs (fun c hc => h c (List.mem_cons_of_mem x hc)) ys

lemma qcFree_of_no_quote :
    ∀ (l : List Char), (∀ c ∈ l, c ≠ '\'') → qcFree l = true
  | [], _ => rfl
  | c :: l, h => by
    have hc : c ≠ '\'' := h c (List.mem_cons_self c l)
    rw [qcFree_cons, if_neg (fun hcon => hc hcon.1)]
    exact qcFree_of_no_quote l (fun d hd => h d (List.mem_cons_of_mem c hd))

lemma idxOfQC_boundary :
    ∀ (p : List Char), qcFree p = true → ∀ (j : List Char),
      idxOfQC (p ++ '\'' :: ':' :: j) = some p.length
  | [], _, j => by simp [idxOfQC_cons]
  | c :: p, h, j => by
    by_cases hc : c = '\'' ∧ p.head? = some ':'
    · rw [qcFree_cons, if_pos hc] at h
      exact absurd h (by simp)
    · rw [qcFree_cons, if_neg hc] at h
      have hcond : ¬(c = '\'' ∧ (p ++ '\'' :: ':' :: j).head? = some ':') := by
        cases p with
        | nil => simp
        | cons x xs =>
          intro hcon
          exact hc ⟨hcon.1, by simpa using hcon.2⟩
      rw [List.cons_append, idxOfQC_cons, if_neg hcond, idxOfQC_boundary p h j]
      rfl

lemma tryProjectAt_of_head_ne (c : Char) (l : List Char) (h : c ≠ 'p') :
    tryProjectAt (c :: l) = none := by
  have hpre : projectLit.isPrefixOf (c :: l) = false := by
    have hbeq : ('p' == c) = false := beq_eq_false_iff_ne.mpr (Ne.symm h)
    show List.isPrefixOf ('p' :: "roject '".data) (c :: l) = false
    simp [List.isPrefixOf, hbeq]
  unfold tryProjectAt
  simp [hpre]

lemma findProjectCapture_cons_of_ne (c : Char) (l : List Char) (h : c ≠ 'p') :
    findProjectCapture (c :: l) = findProjectCapture l := by
  simp [findProjectCapture, tryProjectAt_of_head_ne c l h]

lemma findProjectCapture_skip :
    ∀ (xs : List Char), (∀ c ∈ xs, c ≠ 'p') → ∀ (r : List Char),
      findProjectCapture (xs ++ r) = findProjectCapture r
  | [], _, _ => rfl
  | x :: xs, h, r => by
    rw [List.cons_append, findProjectCapture_cons_of_ne x _ (h x (List.mem_cons_self x xs))]
    exact findProjectCapture_skip xs (fun c hc => h c (List.mem_cons_of_mem x hc)) r

lemma findProjectCapture_eq_of_hit (s x : List Char)
    (h : tryProjectAt s = some x) : findProjectCapture s = some x := by
  cases s with
  | nil =>
    rw [(by decide : tryProjectAt ([] : List Char) = none)] at h
    exact absurd h (by simp)
  | cons c l => simp [findProjectCapture, h]

lemma tryProjectAt_hit (t : List Char) (hq : t.any (fun c => c = '\'') = true) :
    tryProjectAt (projectLit ++ t) = some (t.takeWhile (fun c => c ≠ '\'')) := by
  unfold tryProjectAt
  rw [isPrefixOf_append_self, List.drop_left]
  simp [hq]

lemma takeWhile_append_quote :
    ∀ (P : List Char), (∀ c ∈ P, c ≠ '\'') → ∀ (t : List Char), t.head? = some '\'' →
      (P ++ t).takeWhile (fun c => c ≠ '\'') = P
  | [], _, t, ht => by
    cases t with
    | nil => simp at ht
    | cons x xs =>
      have hx : x = '\'' := by simpa using ht
      subst hx
      simp [List.takeWhile_cons]
  | c :: P, h, t, ht => by
    have hc : c ≠ '\'' := h c (List.mem_cons_self c P)
    rw [List.cons_append, List.takeWhile_cons, if_pos (by simp [hc])]
    rw [takeWhile_append_quote P (fun d hd => h d (List.mem_cons_of_mem c hd)) t ht]

lemma candidateMarker_split_lit :
    candidateMarker.data = "Here are the best-suited candidates for your ".data ++ projectLit := by
  decide

lemma marker_head_no_p :
    ∀ c ∈ "Here are the best-suited candidates for your ".data, c ≠ 'p' := by
  decide

lemma candidateMarker_split_quote :
    candidateMarker.data
      = "Here are the best-suited candidates for your project ".data ++ ['\''] := by
  decide

lemma marker_init_no_quote :
    ∀ c ∈ "Here are the best-suited candidates for your project ".data, c ≠ '\'' := by
  decide

/-- Claim C3 (amended): for every agent response of the form
`marker ++ P ++ "':" ++ j` where the project name `P` contains no apostrophe
and does not start with a colon: if the trimmed remainder `j` parses as a
candidate array, the gateway appends a candidate-selection message whose
`projectId` is `P` and whose candidates equal the parsed payload; if the parse
fails, it appends a plain agent message whose text equals the original response
string (the response is never dropped). -/
theorem C3_classification_amended (parse : List Char → Option (List CandidateAgent))
    (P j : String) (n : Nat)
    (hq : ∀ c ∈ P.data, c ≠ '\'')
    (hcol : P.data.head? ≠ some ':') :
    (∀ cs, parse (trimChars j.data) = some cs →
      classifyAgentResponse parse (candidateMarker ++ P ++ "':" ++ j) n =
        { id := toString n ++ "-agent-candidates"
          type := .agent
          text := candidateMarker ++ P ++ "':"
          isCandidateSelection := true
          candidates := some cs
          projectId := some P
          promptIssued := some false })
    ∧ (parse (trimChars j.data) = none →
      classifyAgentResponse parse (candidateMarker ++ P ++ "':" ++ j) n =
        { id := toString n ++ "-agent-parse-error"
          type := .agent
          text := candidateMarker ++ P ++ "':" ++ j }) := by
  have hdata : (candidateMarker ++ P ++ "':" ++ j).data
      = (candidateMarker.data ++ P.data) ++ ('\'' :: ':' :: j.data) := by
    simp only [String.data_append, List.append_assoc]
    rfl
  have hpref : candidateMarker.data.isPrefixOf (candidateMarker ++ P ++ "':" ++ j).data
      = true := by
    rw [hdata, List.append_assoc]
    exact isPrefixOf_append_self _ _
  have hqcfree : qcFree (candidateMarker.data ++ P.data) = true := by
    rw [candidateMarker_split_quote, List.append_assoc]
    rw [qcFree_append_of_no_quote _ marker_init_no_quote]
    show qcFree ('\'' :: P.data) = true
    rw [qcFree_cons, if_neg (fun hcon => hcol hcon.2)]
    exact qcFree_of_no_quote _ hq
  have hidx : idxOfQC (candidateMarker ++ P ++ "':" ++ j).data
      = some (candidateMarker.data ++ P.data).length := by
    rw [hdata]
    exact idxOfQC_boundary _ hqcfree _
  have hlen2 : ((candidateMarker.data ++ P.data) ++ ['\'', ':']).length
      = (candidateMarker.data ++ P.data).length + 2 := by
    simp
    omega
  have hassoc : (candidateMarker ++ P ++ "':" ++ j).data
      = ((candidateMarker.data ++ P.data) ++ ['\'', ':']) ++ j.data := by
    rw [hdata]
    simp only [List.append_assoc]
    rfl
  have hdrop : (candidateMarker ++ P ++ "':" ++ j).data.drop
      ((candidateMarker.data ++ P.data).length + 2) = j.data := by
    rw [hassoc, ← hlen2, List.drop_left]
  have htake : (candidateMarker ++ P ++ "':" ++ j).data.take
      ((candidateMarker.data ++ P.data).length + 2)
      = (candidateMarker.data ++ P.data) ++ ['\'', ':'] := by
    rw [hassoc, ← hlen2, List.take_left]
  have htakeStr : String.mk ((candidateMarker ++ P ++ "':" ++ j).data.take
      ((candidateMarker.data ++ P.data).length + 2)) = candidateMarker ++ P ++ "':" := by
    apply String.ext
    rw [htake]
    simp only [String.data_append, List.append_assoc]
  have hcap : findProjectCapture (candidateMarker ++ P ++ "':" ++ j).data = some P.data := by
    have hany : (P.data ++ '\'' :: ':' :: j.data).any (fun c => c = '\'') = true :=
      List.any_eq_true.mpr ⟨'\'', by simp, by simp⟩
    have hhit := tryProjectAt_hit (P.data ++ '\'' :: ':' :: j.data) hany
    have htw : ((P.data ++ '\'' :: ':' :: j.data).takeWhile (fun c => c ≠ '\'')) = P.data :=
      takeWhile_append_quote P.data hq _ rfl
    rw [hdata, candidateMarker_split_lit, List.append_assoc, List.append_assoc]
    rw [findProjectCapture_skip _ marker_head_no_p]
    rw [findProjectCapture_eq_of_hit _ _ hhit, htw]
  have hmk : String.mk P.data = P := rfl
  constructor
  · intro cs hcs
    unfold classifyAgentResponse
    rw [hpref]
    simp only [if_true, hidx, hdrop, hcap, htakeStr, hcs, Option.map_some', hmk]
  · intro hnone
    unfold classifyAgentResponse
    rw [hpref]
    simp only [if_true, hidx, hdrop, hcap, htakeStr, hnone, Option.map_some', hmk]

/-- The JavaScript runtime's `JSON.parse` (external to the repository),
modelled on the only payloads the concrete C3 inputs exercise: the empty array
`[]` parses to the empty candidate list; every other exercised remainder is a
JSON syntax error. -/
def c3Parse : List Char → Option (List CandidateAgent) :=
  fun l => if l = "[]".data then some [] else none

/-- Counterexample to claim C3 as stated: for the project name `:x` (which
starts with a colon) and the valid JSON array payload `[]`, the response has
exactly the claimed form, yet `indexOf("':")` finds the quote ending the marker
followed by the name's leading colon, so the extracted remainder is `x':[]`,
the parse fails, and the gateway appends the plain-text fallback instead of a
candidate-selection message. -/
theorem C3_counterexample :
    classifyAgentResponse c3Parse (candidateMarker ++ ":x" ++ "':" ++ "[]") 0 =
      { id := "0-agent-parse-error", type := .agent,
        text := candidateMarker ++ ":x" ++ "':" ++ "[]" }
    ∧ c3Parse (trimChars "[]".data) = some []
    ∧ (classifyAgentResponse c3Parse
        (candidateMarker ++ ":x" ++ "':" ++ "[]") 0).isCandidateSelection = false :=
  ⟨rfl, rfl, rfl⟩

/-- Witness for the amended C3 at a concrete input: project name `alpha`,
payload ` []` (trimmed to `[]`), parsed to the empty candidate list. -/
theorem C3_classification_witness :
    classifyAgentResponse c3Parse (candidateMarker ++ "alpha" ++ "':" ++ " []") 7 =
      { id := toString 7 ++ "-agent-candidates"
        type := .agent
        text := candidateMarker ++ "alpha" ++ "':"
        isCandidateSelection := true
        candidates := some []
        projectId := some "alpha"
        promptIssued := some false } :=
  (C3_classification_amended c3Parse "alpha" " []" 7 (by decide) (by decide)).1 [] (by decide)

/-! ## Claim C6: room membership under agent selection -/

/-- The joined-rooms list corresponding to a session's `currentAgentRoom`. -/
def roomList (st : SessionState) : List String :=
  match st.currentAgentRoom with
  | some r => [r]
  | none => []

/-- Well-formedness of a session: the socket is connected and the current room
is absent or is exactly the active agent's nonempty id (invariant I1). -/
def GoodSession (st : SessionState) : Prop :=
  st.socketPresent = true ∧
  (st.currentAgentRoom = none ∨
    ∃ a, st.selectedAgent = some a ∧ st.currentAgentRoom = some a.id ∧ a.id ≠ "")

/-- The session state before any agent is selected. -/
def initSession : SessionState := {}

lemma roomsFrom_append (init : List String) (e1 e2 : List RoomEvent) :
    roomsFrom init (e1 ++ e2) = roomsFrom (roomsFrom init e1) e2 :=
  List.foldl_append _ _ _ _

lemma roomList_length_le_one (st : SessionState) : (roomList st).length ≤ 1 := by
  cases h : st.currentAgentRoom <;> simp [roomList, h]

lemma handleAgentSelect_step (x : Option Agent) (b : Bool) (st : SessionState)
    (hst : GoodSession st) (hx : ∀ a, x = some a → a.id ≠ "") :
    GoodSession (handleAgentSelect x b st).1
    ∧ roomsFrom (roomList st) (handleAgentSelect x b st).2
        = roomList (handleAgentSelect x b st).1
    ∧ (∀ n, (roomsFrom (roomList st) ((handleAgentSelect x b st).2.take n)).length ≤ 1) := by
  obtain ⟨hsock, hroom⟩ := hst
  cases x with
  | none =>
    rcases hroom with hnone | ⟨a, hsel, hcur, hne⟩
    · refine ⟨⟨?_, ?_⟩, ?_, ?_⟩ <;>
        simp [handleAgentSelect, hsock, hnone, roomList, roomsFrom]
    · have hcase : (handleAgentSelect none b st)
          = ({ st with
                selectedAgent := none
                messages := if (!b ||
                  (decide (st.messages.length > 0) && !(st.messages.any isSystemErrorMsg)) : Bool)
                  then [] else st.messages
                meetings := [], projects := [], tasks := []
                currentAgentRoom := none }, [RoomEvent.leaveRoom a.id]) := by
        simp [handleAgentSelect, hsock, hcur, hne]
      refine ⟨⟨?_, ?_⟩, ?_, ?_⟩
      · rw [hcase]
        exact hsock
      · rw [hcase]
        exact Or.inl rfl
      · rw [hcase]
        simp [roomList, hcur, roomsFrom, roomsApply]
      · intro n
        rw [hcase]
        match n with
        | 0 => simp [roomList, hcur, roomsFrom]
        | Nat.succ k => simp [roomList, hcur, roomsFrom, roomsApply]
  | some agent =>
    have ha : agent.id ≠ "" := hx agent rfl
    by_cases hdup : (st.selectedAgent.any (fun a => a.id == agent.id) && !b) = true
    · have hcase : handleAgentSelect (some agent) b st = (st, []) := by
        simp only [handleAgentSelect]
        rw [if_pos hdup]
      rw [hcase]
      exact ⟨⟨hsock, hroom⟩, rfl, fun n => by simpa [roomsFrom] using roomList_length_le_one st⟩
    · rcases hroom with hnone | ⟨a, hsel, hcur, hne⟩
      · have hcase2 : (handleAgentSelect (some agent) b st).1.currentAgentRoom = some agent.id
            ∧ (handleAgentSelect (some agent) b st).1.selectedAgent = some agent
            ∧ (handleAgentSelect (some agent) b st).1.socketPresent = st.socketPresent
            ∧ (handleAgentSelect (some agent) b st).2 = [RoomEvent.joinRoom agent.id] := by
          simp [handleAgentSelect, hdup, hsock, hnone]
        refine ⟨⟨by rw [hcase2.2.2.1]; exact hsock, ?_⟩, ?_, ?_⟩
        · exact Or.inr ⟨agent, hcase2.2.1, hcase2.1, ha⟩
        · rw [hcase2.2.2.2]
          simp [roomList, hcase2.1, hnone, roomsFrom, roomsApply]
        · intro n
          rw [hcase2.2.2.2]
          match n with
          | 0 => simp [roomList, hnone, roomsFrom]
          | Nat.succ k => simp [roomList, hnone, roomsFrom, roomsApply]
      · by_cases heq : a.id = agent.id
        · have hcase2 : (handleAgentSelect (some agent) b st).1.currentAgentRoom = some a.id
              ∧ (handleAgentSelect (some agent) b st).1.selectedAgent = some agent
              ∧ (handleAgentSelect (some agent) b st).1.socketPresent = st.socketPresent
              ∧ (handleAgentSelect (some agent) b st).2 = [] := by
            simp [handleAgentSelect, hdup, hsock, hcur, heq]
          refine ⟨⟨by rw [hcase2.2.2.1]; exact hsock, ?_⟩, ?_, ?_⟩
          · exact Or.inr ⟨agent, hcase2.2.1, by rw [hcase2.1, heq], ha⟩
          · rw [hcase2.2.2.2]
            simp [roomList, hcase2.1, hcur, roomsFrom]
          · intro n
            rw [hcase2.2.2.2]
            simpa [roomsFrom] using roomList_length_le_one st
        · have hcase2 : (handleAgentSelect (some agent) b st).1.currentAgentRoom = some agent.id
              ∧ (handleAgentSelect (some agent) b st).1.selectedAgent = some agent
              ∧ (handleAgentSelect (some agent) b st).1.socketPresent = st.socketPresent
              ∧ (handleAgentSelect (some agent) b st).2
                  = [RoomEvent.leaveRoom a.id, RoomEvent.joinRoom agent.id] := by
            simp [handleAgentSelect, hdup, hsock, hcur, heq, hne]
          refine ⟨⟨by rw [hcase2.2.2.1]; exact hsock, ?_⟩, ?_, ?_⟩
          · exact Or.inr ⟨agent, hcase2.2.1, hcase2.1, ha⟩
          · rw [hcase2.2.2.2]
            simp [roomList, hcase2.1, hcur, roomsFrom, roomsApply, List.erase_cons_head]
          · intro n
            rw [hcase2.2.2.2]
            match n with
            | 0 => simp [roomList, hcur, roomsFrom]
            | 1 => simp [roomList, hcur, roomsFrom, roomsApply, List.erase_cons_head]
            | Nat.succ (Nat.succ k) =>
              simp [roomList, hcur, roomsFrom, roomsApply, List.erase_cons_head]

lemma runSelects_inv :
    ∀ (calls : List (Option Agent × Bool)) (st : SessionState), GoodSession st →
      (∀ c ∈ calls, ∀ a, c.1 = some a → a.id ≠ "") →
      GoodSession (runSelects calls st).1
      ∧ roomsFrom (roomList st) (runSelects calls st).2 = roomList (runSelects calls st).1
      ∧ (∀ n, (roomsFrom (roomList st) ((runSelects calls st).2.take n)).length ≤ 1)
  | [], st, hst, _ =>
    ⟨hst, rfl, fun n => by simpa [runSelects, roomsFrom] using roomList_length_le_one st⟩
  | c :: cs, st, hst, hc => by
    obtain ⟨h1, h2, h3⟩ := handleAgentSelect_step c.1 c.2 st hst (hc c (List.mem_cons_self c cs))
    obtain ⟨ih1, ih2, ih3⟩ := runSelects_inv cs (handleAgentSelect c.1 c.2 st).1 h1
      (fun d hd => hc d (List.mem_cons_of_mem c hd))
    refine ⟨?_, ?_, ?_⟩
    · simpa [runSelects] using ih1
    · show roomsFrom (roomList st) ((runSelects (c :: cs) st).2)
        = roomList (runSelects (c :: cs) st).1
      simp only [runSelects]
      rw [roomsFrom_append, h2]
      exact ih2
    · intro n
      simp only [runSelects]
      rw [List.take_append_eq_append_take, roomsFrom_append]
      by_cases hn : n ≤ (handleAgentSelect c.1 c.2 st).2.length
      · have hz : n - (handleAgentSelect c.1 c.2 st).2.length = 0 := by omega
        rw [hz]
        simpa [roomsFrom] using h3 n
      · have htk : (handleAgentSelect c.1 c.2 st).2.take n = (handleAgentSelect c.1 c.2 st).2 :=
          List.take_of_length_le (by omega)
        rw [htk, h2]
        exact ih3 _

/-- Claim C6: for every sequence of `selectAgent` calls (with nonempty agent
ids) starting from the initial session, at most one room is joined at any
instant of the emission trace, the joined room at the end equals the active
agent's id or is unset, and switching from agent `A` to a different agent `B`
emits `leave_room` for `A`'s room before `join_room` for `B`'s room. -/
theorem C6_room_membership :
    (∀ calls : List (Option Agent × Bool),
      (∀ c ∈ calls, ∀ a, c.1 = some a → a.id ≠ "") →
      (∀ n, (roomsFrom [] ((runSelects calls initSession).2.take n)).length ≤ 1)
      ∧ ((runSelects calls initSession).1.currentAgentRoom = none
          ∨ ∃ a, (runSelects calls initSession).1.selectedAgent = some a
              ∧ (runSelects calls initSession).1.currentAgentRoom = some a.id)
      ∧ roomsFrom [] ((runSelects calls initSession).2)
          = roomList (runSelects calls initSession).1)
    ∧ (∀ (st : SessionState) (A B : Agent), GoodSession st →
        st.selectedAgent = some A → st.currentAgentRoom = some A.id →
        B.id ≠ A.id → B.id ≠ "" →
        (handleAgentSelect (some B) false st).2
          = [RoomEvent.leaveRoom A.id, RoomEvent.joinRoom B.id]) := by
  constructor
  · intro calls hcalls
    have hinit : GoodSession initSession := ⟨rfl, Or.inl rfl⟩
    have hrl : roomList initSession = [] := rfl
    obtain ⟨h1, h2, h3⟩ := runSelects_inv calls initSession hinit hcalls
    refine ⟨fun n => by simpa [hrl] using h3 n, ?_, by simpa [hrl] using h2⟩
    rcases h1.2 with h | ⟨a, hsel, hcur, _⟩
    · exact Or.inl h
    · exact Or.inr ⟨a, hsel, hcur⟩
  · intro st A B hst hsel hcur hne hbne
    obtain ⟨hsock, hroom⟩ := hst
    have haid : A.id ≠ "" := by
      rcases hroom with h | ⟨a, hsel', hcur', hne'⟩
      · rw [h] at hcur
        exact absurd hcur (by simp)
      · rw [hsel] at hsel'
        injection hsel' with h
        rw [← h] at hne'
        exact hne'
    have hdup' : Option.any (fun a => a.id == B.id) st.selectedAgent = false := by
      rw [hsel]
      show (A.id == B.id) = false
      exact beq_eq_false_iff_ne.mpr (Ne.symm hne)
    have hne' : A.id ≠ B.id := Ne.symm hne
    simp [handleAgentSelect, hdup', hsock, hcur, haid, hne']

/-- Concrete session for the C6 witness: agent `a1` active with its room joined. -/
def c6WitState : SessionState :=
  { selectedAgent := some { id := "a1", name := "Aa" }
    currentAgentRoom := some "a1"
    socketPresent := true }

/-- Witness for C6 at concrete inputs: an initial selection followed by a
switch, and the leave-then-join order of a switch. -/
theorem C6_room_membership_witness :
    (∀ n, (roomsFrom [] ((runSelects
        [(some { id := "a1", name := "Aa" }, true), (some { id := "a2", name := "Bb" }, false)]
        initSession).2.take n)).length ≤ 1)
    ∧ (handleAgentSelect (some { id := "a2", name := "Bb" }) false c6WitState).2
        = [RoomEvent.leaveRoom "a1", RoomEvent.joinRoom "a2"] := by
  constructor
  · intro n
    refine (C6_room_membership.1 _ ?_).1 n
    intro c hc a ha
    rcases List.mem_cons.mp hc with h | h
    · subst h
      injection ha with h2
      subst h2
      decide
    · rcases List.mem_cons.mp h with h2 | h2
      · subst h2
        injection ha with h3
        subst h3
        decide
      · exact absurd h2 (by simp)
  · have hgood : GoodSession c6WitState :=
      ⟨rfl, Or.inr ⟨{ id := "a1", name := "Aa" }, rfl, rfl, by decide⟩⟩
    exact C6_room_membership.2 c6WitState { id := "a1", name := "Aa" } { id := "a2", name := "Bb" }
      hgood rfl rfl (by decide) (by decide)

/-! ## Candidate negotiation engine: shared lemmas -/

lemma candStep_preserves_shape (cn pid mid : String) (m : ChatMessage) (a : ActionAcc) :
    (candStep cn pid mid m a).1.id = m.id
    ∧ (candStep cn pid mid m a).1.type = m.type
    ∧ (candStep cn pid mid m a).1.text = m.text
    ∧ (candStep cn pid mid m a).1.isCandidateSelection = m.isCandidateSelection
    ∧ (candStep cn pid mid m a).1.candidates.isSome = m.candidates.isSome := by
  unfold candStep
  cases h : m.candidates with
  | none => simp [h]
  | some l =>
    simp only [h]
    repeat' split
    all_goals simp [h]

lemma candStep_acc_parts (cn pid mid : String) (m : ChatMessage) (a : ActionAcc) :
    (candStep cn pid mid m a).2.projects = a.projects
    ∧ ((candStep cn pid mid m a).2.ref = a.ref ∨ (candStep cn pid mid m a).2.ref = mid :: a.ref)
    ∧ ((candStep cn pid mid m a).2.cooldown = a.cooldown
        ∨ (candStep cn pid mid m a).2.cooldown = pid :: a.cooldown)
    ∧ ((candStep cn pid mid m a).2.prompts = a.prompts
        ∨ (candStep cn pid mid m a).2.prompts
            = a.prompts ++ [nextStepMessage a.projects pid a.nid]) := by
  unfold candStep
  cases h : m.candidates with
  | none => simp
  | some l =>
    simp only [h]
    repeat' split
    all_goals simp

lemma candStep_isNextStep (cn pid mid : String) (pjs : List Project) (pid' : String)
    (m : ChatMessage) (a : ActionAcc) :
    isNextStepMsg pjs pid' (candStep cn pid mid m a).1 = isNextStepMsg pjs pid' m := by
  obtain ⟨_, h2, h3, _, _⟩ := candStep_preserves_shape cn pid mid m a
  unfold isNextStepMsg
  rw [h2, h3]

lemma candStep_isTarget (cn pid mid mid' : String) (m : ChatMessage) (a : ActionAcc) :
    isTargetMsg mid' (candStep cn pid mid m a).1 = isTargetMsg mid' m := by
  obtain ⟨h1, _, _, h4, h5⟩ := candStep_preserves_shape cn pid mid m a
  unfold isTargetMsg
  rw [h1, h4, h5]

lemma candStep_not_target (cn pid mid : String) (m : ChatMessage) (a : ActionAcc)
    (h : isTargetMsg mid m = false) : candStep cn pid mid m a = (m, a) := by
  unfold candStep
  cases hc : m.candidates with
  | none => simp
  | some l =>
    have h2 : (m.id == mid && m.isCandidateSelection) = false := by
      unfold isTargetMsg at h
      rw [hc] at h
      simpa using h
    simp [hc, h2]

lemma candStep_candidates (cn pid mid : String) (m : ChatMessage) (a : ActionAcc) :
    (candStep cn pid mid m a).1.candidates
      = if (m.id == mid && m.isCandidateSelection) = true
        then m.candidates.map (List.filter (fun c => c.name ≠ cn))
        else m.candidates := by
  unfold candStep
  cases hc : m.candidates with
  | none => simp [hc]
  | some l =>
    simp only [hc]
    split_ifs <;> simp_all

lemma mapMsgs_append (cn pid mid : String) (xs ys : List ChatMessage) (a : ActionAcc) :
    mapMsgs cn pid mid (xs ++ ys) a
      = ((mapMsgs cn pid mid xs a).1
           ++ (mapMsgs cn pid mid ys (mapMsgs cn pid mid xs a).2).1,
         (mapMsgs cn pid mid ys (mapMsgs cn pid mid xs a).2).2) := by
  induction xs generalizing a with
  | nil => simp [mapMsgs]
  | cons m xs ih => simp [mapMsgs, ih]

lemma mapMsgs_no_target (cn pid mid : String) (ms : List ChatMessage) (a : ActionAcc)
    (hms : ∀ m ∈ ms, isTargetMsg mid m = false) :
    mapMsgs cn pid mid ms a = (ms, a) := by
  induction ms with
  | nil => rfl
  | cons m ms ih =>
    have h1 := candStep_not_target cn pid mid m a (hms m (List.mem_cons_self m ms))
    simp [mapMsgs, h1, ih (fun x hx => hms x (List.mem_cons_of_mem m hx))]

lemma mapMsgs_countNS (cn pid mid : String) (pjs : List Project) (pid' : String) :
    ∀ (ms : List ChatMessage) (a : ActionAcc),
      ((mapMsgs cn pid mid ms a).1).countP (isNextStepMsg pjs pid')
        = ms.countP (isNextStepMsg pjs pid')
  | [], _ => rfl
  | m :: ms, a => by
    simp [mapMsgs, List.countP_cons, candStep_isNextStep,
      mapMsgs_countNS cn pid mid pjs pid' ms (candStep cn pid mid m a).2]

lemma mapMsgs_preserves_no_target (cn pid mid mid' : String) :
    ∀ (ms : List ChatMessage) (a : ActionAcc),
      (∀ x ∈ ms, isTargetMsg mid' x = false) →
      ∀ y ∈ (mapMsgs cn pid mid ms a).1, isTargetMsg mid' y = false
  | [], _, _, y, hy => absurd hy (by simp [mapMsgs])
  | m :: ms, a, hms, y, hy => by
    rw [mapMsgs] at hy
    rcases List.mem_cons.mp hy with h | h
    · rw [h, candStep_isTarget]
      exact hms m (List.mem_cons_self m ms)
    · exact mapMsgs_preserves_no_target cn pid mid mid' ms (candStep cn pid mid m a).2
        (fun x hx => hms x (List.mem_cons_of_mem m hx)) y h

lemma setCandidatesEmpty_self (m : ChatMessage) (h : m.candidates = some []) :
    ({ m with candidates := some [] } : ChatMessage) = m := by
  cases m
  simp_all

lemma mapMsgs_stable (cn pid mid : String) :
    ∀ (ms : List ChatMessage) (a : ActionAcc), mid ∈ a.ref →
      (∀ x ∈ ms, isTargetMsg mid x = true → x.candidates = some []) →
      mapMsgs cn pid mid ms a = (ms, a)
  | [], _, _, _ => rfl
  | m :: ms, a, href, hms => by
    have hstep : candStep cn pid mid m a = (m, a) := by
      by_cases ht : isTargetMsg mid m = true
      · have hcand := hms m (List.mem_cons_self m ms) ht
        have hcond : (m.id == mid && m.isCandidateSelection) = true := by
          unfold isTargetMsg at ht
          rw [hcand] at ht
          simpa using ht
        unfold candStep
        simp only [hcand, hcond, if_true]
        rw [if_pos (by simp), if_pos href, setCandidatesEmpty_self m hcand]
      · exact candStep_not_target cn pid mid m a (by simpa using ht)
    simp [mapMsgs, hstep,
      mapMsgs_stable cn pid mid ms a href (fun x hx => hms x (List.mem_cons_of_mem m hx))]

lemma isNextStep_actionUserMsg (pjs : List Project) (pid' : String) (b : Bool)
    (cn pid : String) (n : Nat) :
    isNextStepMsg pjs pid' (actionUserMsg b cn pid n) = false := by
  simp [isNextStepMsg, actionUserMsg]

lemma isTarget_actionUserMsg (mid : String) (b : Bool) (cn pid : String) (n : Nat) :
    isTargetMsg mid (actionUserMsg b cn pid n) = false := by
  simp [isTargetMsg, actionUserMsg]

lemma isNextStep_nextStepMessage (pjs : List Project) (pid : String) (n : Nat) :
    isNextStepMsg pjs pid (nextStepMessage pjs pid n) = true := by
  simp [isNextStepMsg, nextStepMessage]

lemma isTarget_nextStepMessage (mid : String) (pjs : List Project) (pid : String) (n : Nat) :
    isTargetMsg mid (nextStepMessage pjs pid n) = false := by
  simp [isTargetMsg, nextStepMessage]

lemma runCandidateAction_eq (b : Bool) (cn pid mid : String) (st : NState) (hpid : pid ≠ "") :
    runCandidateAction b true cn pid mid st =
      { messages :=
          (mapMsgs cn pid mid (st.messages ++ [actionUserMsg b cn pid st.nextId]) (initAcc st)).1
          ++ (mapMsgs cn pid mid (st.messages ++ [actionUserMsg b cn pid st.nextId]) (initAcc st)).2.prompts
        promptedIds :=
          (mapMsgs cn pid mid (st.messages ++ [actionUserMsg b cn pid st.nextId]) (initAcc st)).2.ref
        cooldown :=
          (mapMsgs cn pid mid (st.messages ++ [actionUserMsg b cn pid st.nextId]) (initAcc st)).2.cooldown
        pendingExpiries := st.pendingExpiries ++
          (mapMsgs cn pid mid (st.messages ++ [actionUserMsg b cn pid st.nextId]) (initAcc st)).2.expiries
        projects := st.projects
        nextId :=
          (mapMsgs cn pid mid (st.messages ++ [actionUserMsg b cn pid st.nextId]) (initAcc st)).2.nid } := by
  unfold runCandidateAction
  rw [if_neg (by simp [hpid] : ¬(¬true ∨ pid = ""))]

lemma candStep_target_fresh_prompt (cn pid mid : String) (m : ChatMessage) (a : ActionAcc)
    (l : List CandidateAgent)
    (hc : m.candidates = some l)
    (hcond : (m.id == mid && m.isCandidateSelection) = true)
    (hf : l.filter (fun c => c.name ≠ cn) = [])
    (href : mid ∉ a.ref) (hpid : pid ≠ "") (hcd : pid ∉ a.cooldown) :
    candStep cn pid mid m a =
      ({ m with candidates := some [], promptIssued := some true },
       { a with
          ref := mid :: a.ref
          cooldown := pid :: a.cooldown
          prompts := a.prompts ++ [nextStepMessage a.projects pid a.nid]
          expiries := a.expiries ++ [pid]
          nid := a.nid + 1 }) := by
  unfold candStep
  simp only [hc]
  rw [if_pos hcond, if_pos hf, if_neg href, if_pos ⟨hpid, hcd⟩]

lemma candStep_target_nonempty (cn pid mid : String) (m : ChatMessage) (a : ActionAcc)
    (l : List CandidateAgent)
    (hc : m.candidates = some l)
    (hcond : (m.id == mid && m.isCandidateSelection) = true)
    (hf : l.filter (fun c => c.name ≠ cn) ≠ []) :
    candStep cn pid mid m a
      = ({ m with candidates := some (l.filter (fun c => c.name ≠ cn)) }, a) := by
  unfold candStep
  simp only [hc]
  rw [if_pos hcond, if_neg hf]

lemma mapMsgs_single_target (cn pid mid : String) (ms1 ms2 : List ChatMessage)
    (m : ChatMessage) (a : ActionAcc)
    (h1 : ∀ x ∈ ms1, isTargetMsg mid x = false)
    (h2 : ∀ x ∈ ms2, isTargetMsg mid x = false) :
    mapMsgs cn pid mid (ms1 ++ m :: ms2) a
      = (ms1 ++ (candStep cn pid mid m a).1 :: ms2, (candStep cn pid mid m a).2) := by
  rw [mapMsgs_append, mapMsgs_no_target cn pid mid ms1 a h1]
  simp [mapMsgs, mapMsgs_no_target cn pid mid ms2 _ h2]

lemma mapMsgs_prompts_shape (cn pid mid : String) :
    ∀ (ms : List ChatMessage) (a : ActionAcc), ∀ y ∈ (mapMsgs cn pid mid ms a).2.prompts,
      y ∈ a.prompts ∨ ∃ k, y = nextStepMessage a.projects pid k
  | [], a, y, hy => Or.inl hy
  | m :: ms, a, y, hy => by
    obtain ⟨hproj, _, _, hpr⟩ := candStep_acc_parts cn pid mid m a
    have ih := mapMsgs_prompts_shape cn pid mid ms (candStep cn pid mid m a).2 y
      (by simpa [mapMsgs] using hy)
    rcases ih with h | ⟨k, hk⟩
    · rcases hpr with h2 | h2
      · rw [h2] at h
        exact Or.inl h
      · rw [h2] at h
        rcases List.mem_append.mp h with h3 | h3
        · exact Or.inl h3
        · exact Or.inr ⟨a.nid, by simpa using h3⟩
    · rw [hproj] at hk
      exact Or.inr ⟨k, hk⟩

lemma candStep_cdhit (cn pid mid : String) (m : ChatMessage) (a : ActionAcc)
    (h : pid ∈ a.cooldown) :
    (candStep cn pid mid m a).2.cooldown = a.cooldown
    ∧ (candStep cn pid mid m a).2.prompts = a.prompts := by
  unfold candStep
  cases hc : m.candidates with
  | none => simp
  | some l =>
    simp only [hc]
    split_ifs <;> simp_all

lemma mapMsgs_cdhit (cn pid mid : String) :
    ∀ (ms : List ChatMessage) (a : ActionAcc), pid ∈ a.cooldown →
      (mapMsgs cn pid mid ms a).2.cooldown = a.cooldown
      ∧ (mapMsgs cn pid mid ms a).2.prompts = a.prompts
  | [], _, _ => ⟨rfl, rfl⟩
  | m :: ms, a, h => by
    obtain ⟨h1, h2⟩ := candStep_cdhit cn pid mid m a h
    obtain ⟨ih1, ih2⟩ := mapMsgs_cdhit cn pid mid ms (candStep cn pid mid m a).2 (h1 ▸ h)
    refine ⟨?_, ?_⟩
    · simpa [mapMsgs, h1] using ih1
    · simpa [mapMsgs, h2] using ih2

lemma mapMsgs_length (cn pid mid : String) :
    ∀ (ms : List ChatMessage) (a : ActionAcc),
      ((mapMsgs cn pid mid ms a).1).length = ms.length
  | [], _ => rfl
  | m :: ms, a => by
    simp [mapMsgs, mapMsgs_length cn pid mid ms (candStep cn pid mid m a).2]

lemma mapMsgs_get_candidates (cn pid mid : String) :
    ∀ (ms : List ChatMessage) (a : ActionAcc) (i : Nat) (hi : i < ms.length)
      (hi2 : i < ((mapMsgs cn pid mid ms a).1).length),
      (((mapMsgs cn pid mid ms a).1).get ⟨i, hi2⟩).candidates
        = if ((ms.get ⟨i, hi⟩).id == mid && (ms.get ⟨i, hi⟩).isCandidateSelection) = true
          then (ms.get ⟨i, hi⟩).candidates.map (List.filter (fun c => c.name ≠ cn))
          else (ms.get ⟨i, hi⟩).candidates
  | m :: ms, a, 0, hi, hi2 => by
    simpa [mapMsgs] using candStep_candidates cn pid mid m a
  | m :: ms, a, i + 1, hi, hi2 => by
    have ih := mapMsgs_get_candidates cn pid mid ms (candStep cn pid mid m a).2 i
      (by simpa using hi) (by simpa [mapMsgs, mapMsgs_length] using hi2)
    simpa [mapMsgs] using ih

/-- Exactly one message in the list is the accept/reject target for `mid`:
a decomposition with the target in the middle and no target on either side. -/
def UniqueTarget (mid : String) (l : List CandidateAgent) (msgs : List ChatMessage) : Prop :=
  ∃ ms1 m ms2, msgs = ms1 ++ m :: ms2
    ∧ isTargetMsg mid m = true
    ∧ m.candidates = some l
    ∧ (∀ x ∈ ms1, isTargetMsg mid x = false)
    ∧ (∀ x ∈ ms2, isTargetMsg mid x = false)

/-- Negotiation invariant before exhaustion of the tracked candidate message:
no prompt in the chat yet, project not in cooldown, message not processed,
remaining candidates nonempty and held by the unique target message. -/
def PhaseA (pid mid : String) (l : List CandidateAgent) (st : NState) : Prop :=
  countNextStep st.projects pid st.messages = 0
  ∧ pid ∉ st.cooldown
  ∧ mid ∉ st.promptedIds
  ∧ l ≠ []
  ∧ UniqueTarget mid l st.messages

/-- Negotiation invariant after exhaustion: exactly one prompt in the chat, the
message recorded in the processed set, and every target copy empty. -/
def PhaseB (pid mid : String) (st : NState) : Prop :=
  countNextStep st.projects pid st.messages = 1
  ∧ mid ∈ st.promptedIds
  ∧ ∀ x ∈ st.messages, isTargetMsg mid x = true → x.candidates = some []

lemma isTarget_cond (mid : String) (m : ChatMessage) (h : isTargetMsg mid m = true) :
    (m.id == mid && m.isCandidateSelection) = true := by
  unfold isTargetMsg at h
  simp only [Bool.and_eq_true] at h ⊢
  exact h.1

/-- The computed form of an accept/reject action whose target exhausts freshly:
candidate list cleared, `promptIssued` set, message id recorded, project put in
cooldown, one prompt appended, one cooldown eviction scheduled. -/
lemma action_prompt_core (b : Bool) (cn pid mid : String) (l : List CandidateAgent)
    (st : NState) (ms1 ms2 : List ChatMessage) (m : ChatMessage)
    (hpid : pid ≠ "") (hcd : pid ∉ st.cooldown) (href : mid ∉ st.promptedIds)
    (hdec : st.messages = ms1 ++ m :: ms2)
    (htgt : isTargetMsg mid m = true) (hcand : m.candidates = some l)
    (h1 : ∀ x ∈ ms1, isTargetMsg mid x = false) (h2 : ∀ x ∈ ms2, isTargetMsg mid x = false)
    (hf : l.filter (fun c => c.name ≠ cn) = []) :
    runCandidateAction b true cn pid mid st =
      { messages := (ms1 ++ ({ m with candidates := some [], promptIssued := some true })
                      :: (ms2 ++ [actionUserMsg b cn pid st.nextId]))
                    ++ [nextStepMessage st.projects pid (st.nextId + 1)]
        promptedIds := mid :: st.promptedIds
        cooldown := pid :: st.cooldown
        pendingExpiries := st.pendingExpiries ++ [pid]
        projects := st.projects
        nextId := st.nextId + 2 } := by
  have hmsgs1 : st.messages ++ [actionUserMsg b cn pid st.nextId]
      = ms1 ++ m :: (ms2 ++ [actionUserMsg b cn pid st.nextId]) := by
    rw [hdec]
    simp
  have h2' : ∀ x ∈ ms2 ++ [actionUserMsg b cn pid st.nextId], isTargetMsg mid x = false := by
    intro x hx
    rcases List.mem_append.mp hx with h | h
    · exact h2 x h
    · rw [List.mem_singleton] at h
      rw [h]
      exact isTarget_actionUserMsg mid b cn pid st.nextId
  have hcs := candStep_target_fresh_prompt cn pid mid m (initAcc st) l hcand
    (isTarget_cond mid m htgt) hf href hpid hcd
  rw [runCandidateAction_eq b cn pid mid st hpid, hmsgs1,
    mapMsgs_single_target cn pid mid ms1 _ m (initAcc st) h1 h2', hcs]
  simp [initAcc]

lemma isNextStep_with_cands (pjs : List Project) (pid' : String) (m : ChatMessage)
    (o : Option (List CandidateAgent)) (p' : Option Bool) :
    isNextStepMsg pjs pid' { m with candidates := o, promptIssued := p' }
      = isNextStepMsg pjs pid' m := by
  simp [isNextStepMsg]

lemma isNextStep_with_cands1 (pjs : List Project) (pid' : String) (m : ChatMessage)
    (o : Option (List CandidateAgent)) :
    isNextStepMsg pjs pid' { m with candidates := o } = isNextStepMsg pjs pid' m := by
  simp [isNextStepMsg]

lemma isTarget_with_some (mid' : String) (m : ChatMessage) (l' : List CandidateAgent)
    (p' : Option Bool) :
    isTargetMsg mid' { m with candidates := some l', promptIssued := p' }
      = (m.id == mid' && m.isCandidateSelection) := by
  simp [isTargetMsg]

lemma isTarget_with_some1 (mid' : String) (m : ChatMessage) (l' : List CandidateAgent) :
    isTargetMsg mid' { m with candidates := some l' }
      = (m.id == mid' && m.isCandidateSelection) := by
  simp [isTargetMsg]

/-- The computed form of an accept/reject action whose target keeps at least
one candidate: only the target's list shrinks; no prompt, no cooldown change. -/
lemma action_nonempty_core (b : Bool) (cn pid mid : String) (l : List CandidateAgent)
    (st : NState) (ms1 ms2 : List ChatMessage) (m : ChatMessage)
    (hpid : pid ≠ "")
    (hdec : st.messages = ms1 ++ m :: ms2)
    (htgt : isTargetMsg mid m = true) (hcand : m.candidates = some l)
    (h1 : ∀ x ∈ ms1, isTargetMsg mid x = false) (h2 : ∀ x ∈ ms2, isTargetMsg mid x = false)
    (hf : l.filter (fun c => c.name ≠ cn) ≠ []) :
    runCandidateAction b true cn pid mid st =
      { messages := ms1 ++ ({ m with candidates := some (l.filter (fun c => c.name ≠ cn)) })
                      :: (ms2 ++ [actionUserMsg b cn pid st.nextId])
        promptedIds := st.promptedIds
        cooldown := st.cooldown
        pendingExpiries := st.pendingExpiries
        projects := st.projects
        nextId := st.nextId + 1 } := by
  have hmsgs1 : st.messages ++ [actionUserMsg b cn pid st.nextId]
      = ms1 ++ m :: (ms2 ++ [actionUserMsg b cn pid st.nextId]) := by
    rw [hdec]
    simp
  have h2' : ∀ x ∈ ms2 ++ [actionUserMsg b cn pid st.nextId], isTargetMsg mid x = false := by
    intro x hx
    rcases List.mem_append.mp hx with h | h
    · exact h2 x h
    · rw [List.mem_singleton] at h
      rw [h]
      exact isTarget_actionUserMsg mid b cn pid st.nextId
  have hcs := candStep_target_nonempty cn pid mid m (initAcc st) l hcand
    (isTarget_cond mid m htgt) hf
  rw [runCandidateAction_eq b cn pid mid st hpid, hmsgs1,
    mapMsgs_single_target cn pid mid ms1 _ m (initAcc st) h1 h2', hcs]
  simp [initAcc]

/-- The computed form of an accept/reject action on a state whose target copies
are already exhausted and processed: only the user-facing log entry is added. -/
lemma action_stable_core (b : Bool) (cn pid mid : String) (st : NState)
    (hpid : pid ≠ "")
    (href : mid ∈ st.promptedIds)
    (hemp : ∀ x ∈ st.messages, isTargetMsg mid x = true → x.candidates = some []) :
    runCandidateAction b true cn pid mid st =
      { messages := st.messages ++ [actionUserMsg b cn pid st.nextId]
        promptedIds := st.promptedIds
        cooldown := st.cooldown
        pendingExpiries := st.pendingExpiries
        projects := st.projects
        nextId := st.nextId + 1 } := by
  have hm : ∀ x ∈ st.messages ++ [actionUserMsg b cn pid st.nextId],
      isTargetMsg mid x = true → x.candidates = some [] := by
    intro x hx ht
    rcases List.mem_append.mp hx with h | h
    · exact hemp x h ht
    · rw [List.mem_singleton] at h
      rw [h] at ht
      rw [isTarget_actionUserMsg] at ht
      exact absurd ht (by simp)
  rw [runCandidateAction_eq b cn pid mid st hpid,
    mapMsgs_stable cn pid mid _ (initAcc st) href hm]
  simp [initAcc]

lemma countNS_parts (pjs : List Project) (pid : String) (ms1 ms2 : List ChatMessage)
    (m : ChatMessage)
    (h0 : (ms1 ++ m :: ms2).countP (isNextStepMsg pjs pid) = 0) :
    ms1.countP (isNextStepMsg pjs pid) = 0
    ∧ isNextStepMsg pjs pid m = false
    ∧ ms2.countP (isNextStepMsg pjs pid) = 0 := by
  rw [List.countP_append, List.countP_cons] at h0
  have hpm : isNextStepMsg pjs pid m = false := by
    cases hb : isNextStepMsg pjs pid m
    · rfl
    · rw [hb, if_pos rfl] at h0
      omega
  rw [hpm, if_neg (by simp)] at h0
  exact ⟨by omega, hpm, by omega⟩

lemma action_phaseA_step (b : Bool) (cn pid mid : String) (l : List CandidateAgent)
    (st : NState) (hpid : pid ≠ "") (hA : PhaseA pid mid l st) :
    (l.filter (fun c => c.name ≠ cn) = [] →
      PhaseB pid mid (runCandidateAction b true cn pid mid st))
    ∧ (l.filter (fun c => c.name ≠ cn) ≠ [] →
      PhaseA pid mid (l.filter (fun c => c.name ≠ cn)) (runCandidateAction b true cn pid mid st)) := by
  obtain ⟨hcnt, hcd, href, hlne, ms1, m, ms2, hdec, htgt, hcand, h1, h2⟩ := hA
  have hparts := countNS_parts st.projects pid ms1 ms2 m (by rw [← hdec]; exact hcnt)
  have hcond := isTarget_cond mid m htgt
  constructor
  · intro hf
    rw [action_prompt_core b cn pid mid l st ms1 ms2 m hpid hcd href hdec htgt hcand h1 h2 hf]
    refine ⟨?_, List.mem_cons_self mid st.promptedIds, ?_⟩
    · show ((ms1 ++ ({ m with candidates := some [], promptIssued := some true })
              :: (ms2 ++ [actionUserMsg b cn pid st.nextId]))
            ++ [nextStepMessage st.projects pid (st.nextId + 1)]).countP
          (isNextStepMsg st.projects pid) = 1
      simp [List.countP_append, List.countP_cons, hparts.1, hparts.2.2,
        isNextStep_actionUserMsg, isNextStep_nextStepMessage, isNextStep_with_cands,
        hparts.2.1]
    · intro x hx ht
      rcases List.mem_append.mp hx with hx | hx
      · rcases List.mem_append.mp hx with hx | hx
        · rw [h1 x hx] at ht
          exact absurd ht (by simp)
        · rcases List.mem_cons.mp hx with hx | hx
          · rw [hx]
          · rcases List.mem_append.mp hx with hx | hx
            · rw [h2 x hx] at ht
              exact absurd ht (by simp)
            · rw [List.mem_singleton] at hx
              rw [hx, isTarget_actionUserMsg] at ht
              exact absurd ht (by simp)
      · rw [List.mem_singleton] at hx
        rw [hx, isTarget_nextStepMessage] at ht
        exact absurd ht (by simp)
  · intro hf
    rw [action_nonempty_core b cn pid mid l st ms1 ms2 m hpid hdec htgt hcand h1 h2 hf]
    refine ⟨?_, hcd, href, hf, ?_⟩
    · show (ms1 ++ ({ m with candidates := some (l.filter (fun c => c.name ≠ cn)) })
              :: (ms2 ++ [actionUserMsg b cn pid st.nextId])).countP
          (isNextStepMsg st.projects pid) = 0
      simp [List.countP_append, List.countP_cons, hparts.1, hparts.2.2,
        isNextStep_actionUserMsg, isNextStep_with_cands1, hparts.2.1]
    · refine ⟨ms1, _, ms2 ++ [actionUserMsg b cn pid st.nextId], rfl, ?_, rfl, h1, ?_⟩
      · rw [isTarget_with_some1]
        exact hcond
      · intro x hx
        rcases List.mem_append.mp hx with hx | hx
        · exact h2 x hx
        · rw [List.mem_singleton] at hx
          rw [hx]
          exact isTarget_actionUserMsg mid b cn pid st.nextId

lemma action_phaseB_step (b : Bool) (cn pid mid : String)
    (st : NState) (hpid : pid ≠ "") (hB : PhaseB pid mid st) :
    PhaseB pid mid (runCandidateAction b true cn pid mid st) := by
  obtain ⟨hcnt, href, hemp⟩ := hB
  rw [action_stable_core b cn pid mid st hpid href hemp]
  refine ⟨?_, href, ?_⟩
  · show (st.messages ++ [actionUserMsg b cn pid st.nextId]).countP
        (isNextStepMsg st.projects pid) = 1
    simp [List.countP_append, isNextStep_actionUserMsg]
    exact hcnt
  · intro x hx ht
    rcases List.mem_append.mp hx with h | h
    · exact hemp x h ht
    · rw [List.mem_singleton] at h
      rw [h, isTarget_actionUserMsg] at ht
      exact absurd ht (by simp)

lemma phaseB_apply (pid mid : String) (hpid : pid ≠ "") :
    ∀ (acts : List (Bool × String)) (st : NState), PhaseB pid mid st →
      PhaseB pid mid (applyCandidateActions pid mid acts st)
  | [], _, h => h
  | ab :: acts, st, h =>
    phaseB_apply pid mid hpid acts _ (action_phaseB_step ab.1 ab.2 pid mid st hpid h)

lemma phaseA_run (pid mid : String) (hpid : pid ≠ "") :
    ∀ (acts : List (Bool × String)) (l : List CandidateAgent) (st : NState),
      PhaseA pid mid l st →
      (∀ c ∈ l, c.name ∈ acts.map (fun ab => ab.2)) →
      PhaseB pid mid (applyCandidateActions pid mid acts st)
  | [], l, st, hA, hcover => by
    exfalso
    obtain ⟨_, _, _, hlne, _⟩ := hA
    cases l with
    | nil => exact hlne rfl
    | cons c l' => simpa using hcover c (List.mem_cons_self c l')
  | ab :: acts, l, st, hA, hcover => by
    obtain ⟨hstep1, hstep2⟩ := action_phaseA_step ab.1 ab.2 pid mid l st hpid hA
    by_cases hf : l.filter (fun c => c.name ≠ ab.2) = []
    · exact phaseB_apply pid mid hpid acts _ (hstep1 hf)
    · refine phaseA_run pid mid hpid acts _ _ (hstep2 hf) ?_
      intro c hc
      obtain ⟨hcl, hcn⟩ := List.mem_filter.mp hc
      have hcn' : c.name ≠ ab.2 := by simpa using hcn
      have hin := hcover c hcl
      simp only [List.map_cons, List.mem_cons] at hin
      rcases hin with h | h
      · exact absurd h hcn'
      · simpa using h

/-! ## Claim C1: exactly one "next step" prompt per exhausted message -/

/-- Claim C1 (amended): given a candidate-selection message holding a nonempty
candidate list — the unique accept/reject target for its id — in a chat with no
"next step" prompt for its project yet, the project not in cooldown and the
message unprocessed, after any nonempty sequence of accept/reject actions
against that message covering every candidate name (any order, any mix of
accept and reject), exactly one "next step" prompt message for that message's
project exists in the chat; as in the source, that prompt is emitted with type
`agent`, not `system`. -/
theorem C1_next_step_exactly_once (pid mid : String) (l : List CandidateAgent)
    (st : NState) (acts : List (Bool × String))
    (hpid : pid ≠ "")
    (hA : PhaseA pid mid l st)
    (hcover : ∀ c ∈ l, c.name ∈ acts.map (fun ab => ab.2)) :
    countNextStep (applyCandidateActions pid mid acts st).projects pid
      (applyCandidateActions pid mid acts st).messages = 1 :=
  (phaseA_run pid mid hpid acts l st hA hcover).1

/-- A concrete staffing candidate for the negotiation-engine scenarios. -/
def aliceCandidate : CandidateAgent :=
  { name := "Alice", title := "Dev", department := "Eng", skills := [], description := "" }

/-- The candidate-selection message holding the single candidate Alice. -/
def c1TargetMsg : ChatMessage :=
  { id := "m1", type := .agent
    text := "Here are the best-suited candidates for your project 'p1':"
    isCandidateSelection := true
    candidates := some [aliceCandidate]
    projectId := some "p1"
    promptIssued := some false }

/-- Concrete negotiation state: one candidate-selection message for project
`p1` holding the single candidate Alice. -/
def c1CxState : NState :=
  { messages := [c1TargetMsg]
    promptedIds := []
    cooldown := []
    pendingExpiries := []
    projects := []
    nextId := 0 }

/-- Counterexample to claim C1 as stated: after the single accept that empties
the one-candidate list, the chat contains zero *system*-type messages bearing
the "next step" text — the prompt the code emits has type `agent` — although
exactly one next-step prompt message exists. -/
theorem C1_counterexample :
    ((applyCandidateActions "p1" "m1" [(true, "Alice")] c1CxState).messages.countP
        (fun m => decide (m.type = MsgType.system) && (m.text == nextStepText [] "p1"))) = 0
    ∧ countNextStep [] "p1"
        (applyCandidateActions "p1" "m1" [(true, "Alice")] c1CxState).messages = 1 :=
  ⟨rfl, rfl⟩

/-- Witness for the amended C1 at a concrete input (a single reject emptying
the list). -/
theorem C1_next_step_witness :
    countNextStep (applyCandidateActions "p1" "m1" [(false, "Alice")] c1CxState).projects "p1"
      (applyCandidateActions "p1" "m1" [(false, "Alice")] c1CxState).messages = 1 :=
  C1_next_step_exactly_once "p1" "m1" [aliceCandidate] c1CxState [(false, "Alice")]
    (by decide)
    ⟨rfl, by decide, by decide, by decide, [], _, [], rfl, by decide, rfl,
      fun x hx => absurd hx (List.not_mem_nil x),
      fun x hx => absurd hx (List.not_mem_nil x)⟩
    (by decide)

/-! ## Claim C2: same-project exhaustions within the cooldown window -/

/-- Any accept/reject action for a project currently in cooldown adds no
"next step" prompt: the chat's prompt count is unchanged for every counting
parameter. -/
lemma action_cooldown_suppressed (b : Bool) (cn pid mid : String) (st : NState)
    (hcd : pid ∈ st.cooldown) :
    ∀ (pjs : List Project) (pid' : String),
      countNextStep pjs pid' (runCandidateAction b true cn pid mid st).messages
        = countNextStep pjs pid' st.messages := by
  intro pjs pid'
  by_cases hpid : pid = ""
  · subst hpid
    unfold runCandidateAction
    rw [if_pos (by simp)]
    unfold countNextStep
    simp [List.countP_append, List.countP_cons, isNextStepMsg]
  · rw [runCandidateAction_eq b cn pid mid st hpid]
    have hmm := mapMsgs_cdhit cn pid mid
      (st.messages ++ [actionUserMsg b cn pid st.nextId]) (initAcc st)
      (show pid ∈ (initAcc st).cooldown from hcd)
    unfold countNextStep
    rw [List.countP_append, hmm.2, mapMsgs_countNS]
    simp [initAcc, List.countP_append, List.countP_cons, isNextStep_actionUserMsg]

/-- Claim C2: two exhaustion events for the same project, from two different
candidate-selection messages, with no cooldown eviction between the two actions
(within the cooldown window), produce exactly one "next step" prompt, never
two. -/
theorem C2_cooldown_dedup (b1 b2 : Bool) (cn1 cn2 pid mid1 mid2 : String)
    (l1 l2 : List CandidateAgent) (st : NState)
    (hpid : pid ≠ "")
    (hcnt : countNextStep st.projects pid st.messages = 0)
    (hcd : pid ∉ st.cooldown)
    (href1 : mid1 ∉ st.promptedIds)
    (hne : mid2 ≠ mid1)
    (hu1 : UniqueTarget mid1 l1 st.messages)
    (hf1 : l1.filter (fun c => c.name ≠ cn1) = [])
    (hu2 : UniqueTarget mid2 l2 st.messages)
    (hf2 : l2.filter (fun c => c.name ≠ cn2) = []) :
    countNextStep st.projects pid
      ((runCandidateAction b2 true cn2 pid mid2
        (runCandidateAction b1 true cn1 pid mid1 st)).messages) = 1 := by
  obtain ⟨ms1, m, ms2, hdec, htgt, hcand, h1, h2⟩ := hu1
  have hparts := countNS_parts st.projects pid ms1 ms2 m (by rw [← hdec]; exact hcnt)
  rw [action_prompt_core b1 cn1 pid mid1 l1 st ms1 ms2 m hpid hcd href1 hdec htgt hcand
    h1 h2 hf1]
  rw [action_cooldown_suppressed b2 cn2 pid mid2 _ (List.mem_cons_self pid st.cooldown)]
  unfold countNextStep
  simp [List.countP_append, List.countP_cons, hparts.1, hparts.2.1, hparts.2.2,
    isNextStep_actionUserMsg, isNextStep_nextStepMessage, isNextStep_with_cands]

/-- First candidate-selection message of the C2 witness scenario. -/
def c2Msg1 : ChatMessage :=
  { id := "m1", type := .agent
    text := "Here are the best-suited candidates for your project 'p1':"
    isCandidateSelection := true
    candidates := some [aliceCandidate]
    projectId := some "p1"
    promptIssued := some false }

/-- Second candidate-selection message of the C2 witness scenario, same
project, different id. -/
def c2Msg2 : ChatMessage :=
  { c2Msg1 with id := "m2" }

/-- Chat with two candidate-selection messages for the same project. -/
def c2WitState : NState :=
  { messages := [c2Msg1, c2Msg2]
    promptedIds := []
    cooldown := []
    pendingExpiries := []
    projects := []
    nextId := 0 }

/-- Witness for C2 at a concrete input: accepting the only candidate of each
of the two messages back to back yields one prompt. -/
theorem C2_cooldown_dedup_witness :
    countNextStep c2WitState.projects "p1"
      ((runCandidateAction false true "Alice" "p1" "m2"
        (runCandidateAction true true "Alice" "p1" "m1" c2WitState)).messages) = 1 :=
  C2_cooldown_dedup true false "Alice" "Alice" "p1" "m1" "m2" [aliceCandidate] [aliceCandidate]
    c2WitState (by decide) rfl (by decide) (by decide) (by decide)
    ⟨[], c2Msg1, [c2Msg2], rfl, by decide, rfl,
      fun x hx => absurd hx (List.not_mem_nil x), by decide⟩
    (by decide)
    ⟨[c2Msg1], c2Msg2, [], rfl, by decide, rfl, by decide,
      fun x hx => absurd hx (List.not_mem_nil x)⟩
    (by decide)

/-! ## Claim C4: candidate lists only shrink -/

/-- One accept/reject action: every message's candidate list is either
unchanged, or — for the targeted message — filtered by the named candidate:
a sublist (no additions, no reordering), only candidates bearing the name are
removed, and an absent name leaves the list unchanged. -/
lemma action_candidates_shrink (b : Bool) (cn pid mid : String) (st : NState)
    (i : Nat) (hi : i < st.messages.length) :
    ∃ hi2 : i < (runCandidateAction b true cn pid mid st).messages.length,
      ∀ l, (st.messages.get ⟨i, hi⟩).candidates = some l →
        ∃ l', ((runCandidateAction b true cn pid mid st).messages.get ⟨i, hi2⟩).candidates
            = some l'
          ∧ l'.Sublist l
          ∧ (∀ c ∈ l, c ∉ l' → c.name = cn)
          ∧ (cn ∉ l.map (fun c => c.name) → l' = l) := by
  by_cases hpid : ¬true ∨ pid = ""
  · unfold runCandidateAction
    rw [if_pos hpid]
    refine ⟨by simp; omega, ?_⟩
    intro l hl
    rw [List.get_append i hi]
    exact ⟨l, hl, List.Sublist.refl l, fun c hc hc' => absurd hc hc', fun _ => rfl⟩
  · have hpid' : pid ≠ "" := fun h => hpid (Or.inr h)
    rw [runCandidateAction_eq b cn pid mid st hpid']
    have hlen1 : i < (st.messages ++ [actionUserMsg b cn pid st.nextId]).length := by
      simp
      omega
    have hlenm : i < ((mapMsgs cn pid mid (st.messages ++ [actionUserMsg b cn pid st.nextId])
        (initAcc st)).1).length := by
      rw [mapMsgs_length]
      exact hlen1
    refine ⟨by rw [List.length_append]; omega, ?_⟩
    intro l hl
    rw [List.get_append i hlenm]
    have hget := mapMsgs_get_candidates cn pid mid
      (st.messages ++ [actionUserMsg b cn pid st.nextId]) (initAcc st) i hlen1 hlenm
    have hgot : (st.messages ++ [actionUserMsg b cn pid st.nextId]).get ⟨i, hlen1⟩
        = st.messages.get ⟨i, hi⟩ := List.get_append i hi
    rw [hgot] at hget
    by_cases hcond : ((st.messages.get ⟨i, hi⟩).id == mid
        && (st.messages.get ⟨i, hi⟩).isCandidateSelection) = true
    · rw [if_pos hcond, hl] at hget
      refine ⟨l.filter (fun c => c.name ≠ cn), by simpa using hget,
        List.filter_sublist l, ?_, ?_⟩
      · intro c hc hc'
        by_contra hname
        apply hc'
        rw [List.mem_filter]
        exact ⟨hc, by simpa using hname⟩
      · intro habs
        apply List.filter_eq_self.mpr
        intro c hc
        have hcn : c.name ≠ cn := fun h => habs (List.mem_map.mpr ⟨c, hc, h⟩)
        simpa using hcn
    · rw [if_neg hcond, hl] at hget
      exact ⟨l, hget, List.Sublist.refl l, fun c hc hc' => absurd hc hc', fun _ => rfl⟩

/-- A sequence of accept/reject actions keeps each message's candidate list a
sublist of its original value. -/
lemma actions_candidates_sublist (pid mid : String) :
    ∀ (acts : List (Bool × String)) (st : NState) (i : Nat) (hi : i < st.messages.length)
      (l : List CandidateAgent), (st.messages.get ⟨i, hi⟩).candidates = some l →
      ∃ (hi2 : i < (applyCandidateActions pid mid acts st).messages.length)
        (l' : List CandidateAgent),
        ((applyCandidateActions pid mid acts st).messages.get ⟨i, hi2⟩).candidates = some l'
        ∧ l'.Sublist l
  | [], _, i, hi, l, hl => ⟨hi, l, hl, List.Sublist.refl l⟩
  | ab :: acts, st, i, hi, l, hl => by
    obtain ⟨hi2, hstep⟩ := action_candidates_shrink ab.1 ab.2 pid mid st i hi
    obtain ⟨l1, hl1, hs1, _, _⟩ := hstep l hl
    obtain ⟨hi3, l2, hl2, hs2⟩ := actions_candidates_sublist pid mid acts
      (runCandidateAction ab.1 true ab.2 pid mid st) i hi2 l1 hl1
    exact ⟨hi3, l2, hl2, hs2.trans hs1⟩

/-- Claim C4: for every candidate-selection message and every sequence of
accept/reject actions, the candidates list is non-increasing: each action
removes at most the candidates bearing the named candidate's name, never adds,
never reorders (the new list is a sublist of the old), and removing an absent
name leaves the list unchanged. -/
theorem C4_candidates_non_increasing (b : Bool) (cn pid mid : String) (st : NState)
    (i : Nat) (hi : i < st.messages.length) :
    (∃ hi2 : i < (runCandidateAction b true cn pid mid st).messages.length,
      ∀ l, (st.messages.get ⟨i, hi⟩).candidates = some l →
        ∃ l', ((runCandidateAction b true cn pid mid st).messages.get ⟨i, hi2⟩).candidates
            = some l'
          ∧ l'.Sublist l
          ∧ (∀ c ∈ l, c ∉ l' → c.name = cn)
          ∧ (cn ∉ l.map (fun c => c.name) → l' = l))
    ∧ (∀ (acts : List (Bool × String)) (l : List CandidateAgent),
        (st.messages.get ⟨i, hi⟩).candidates = some l →
        ∃ (hi3 : i < (applyCandidateActions pid mid acts st).messages.length)
          (l' : List CandidateAgent),
          ((applyCandidateActions pid mid acts st).messages.get ⟨i, hi3⟩).candidates = some l'
          ∧ l'.Sublist l) :=
  ⟨action_candidates_shrink b cn pid mid st i hi,
   fun acts l hl => actions_candidates_sublist pid mid acts st i hi l hl⟩

/-- Witness for C4 at a concrete input: accepting the absent name `Bob`
leaves Alice's one-element list unchanged. -/
theorem C4_candidates_witness :
    ∃ l', (((runCandidateAction true true "Bob" "p1" "m1" c1CxState).messages.get
        ⟨0, by decide⟩).candidates = some l')
      ∧ l'.Sublist [aliceCandidate]
      ∧ (∀ c ∈ [aliceCandidate], c ∉ l' → c.name = "Bob")
      ∧ ("Bob" ∉ [aliceCandidate].map (fun c => c.name) → l' = [aliceCandidate]) := by
  obtain ⟨hi2, h⟩ :=
    (C4_candidates_non_increasing true "Bob" "p1" "m1" c1CxState 0 (by decide)).1
  obtain ⟨l', h1, h2, h3, h4⟩ := h [aliceCandidate] rfl
  exact ⟨l', h1, h2, h3, h4⟩

/-! ## Claim C5: promptIssued is set on exhaustion -/

lemma candStep_target_fresh_suppressed (cn pid mid : String) (m : ChatMessage) (a : ActionAcc)
    (l : List CandidateAgent)
    (hc : m.candidates = some l)
    (hcond : (m.id == mid && m.isCandidateSelection) = true)
    (hf : l.filter (fun c => c.name ≠ cn) = [])
    (href : mid ∉ a.ref)
    (hsup : ¬(pid ≠ "" ∧ pid ∉ a.cooldown)) :
    candStep cn pid mid m a =
      ({ m with candidates := some [], promptIssued := some true },
       { a with ref := mid :: a.ref }) := by
  unfold candStep
  simp only [hc]
  rw [if_pos hcond, if_pos hf, if_neg href, if_neg hsup]

/-- The computed form of an action whose target exhausts while the project is
in cooldown: the prompt is suppressed but the message is still recorded and its
`promptIssued` flag set. -/
lemma action_suppressed_core (b : Bool) (cn pid mid : String) (l : List CandidateAgent)
    (st : NState) (ms1 ms2 : List ChatMessage) (m : ChatMessage)
    (hpid : pid ≠ "") (hcd : pid ∈ st.cooldown) (href : mid ∉ st.promptedIds)
    (hdec : st.messages = ms1 ++ m :: ms2)
    (htgt : isTargetMsg mid m = true) (hcand : m.candidates = some l)
    (h1 : ∀ x ∈ ms1, isTargetMsg mid x = false) (h2 : ∀ x ∈ ms2, isTargetMsg mid x = false)
    (hf : l.filter (fun c => c.name ≠ cn) = []) :
    runCandidateAction b true cn pid mid st =
      { messages := ms1 ++ ({ m with candidates := some [], promptIssued := some true })
                      :: (ms2 ++ [actionUserMsg b cn pid st.nextId])
        promptedIds := mid :: st.promptedIds
        cooldown := st.cooldown
        pendingExpiries := st.pendingExpiries
        projects := st.projects
        nextId := st.nextId + 1 } := by
  have hmsgs1 : st.messages ++ [actionUserMsg b cn pid st.nextId]
      = ms1 ++ m :: (ms2 ++ [actionUserMsg b cn pid st.nextId]) := by
    rw [hdec]
    simp
  have h2' : ∀ x ∈ ms2 ++ [actionUserMsg b cn pid st.nextId], isTargetMsg mid x = false := by
    intro x hx
    rcases List.mem_append.mp hx with h | h
    · exact h2 x h
    · rw [List.mem_singleton] at h
      rw [h]
      exact isTarget_actionUserMsg mid b cn pid st.nextId
  have hcs := candStep_target_fresh_suppressed cn pid mid m (initAcc st) l hcand
    (isTarget_cond mid m htgt) hf href (fun hcon => hcon.2 hcd)
  rw [runCandidateAction_eq b cn pid mid st hpid, hmsgs1,
    mapMsgs_single_target cn pid mid ms1 _ m (initAcc st) h1 h2', hcs]
  simp [initAcc]

/-- Claim C5: whenever an accept/reject action causes the (unique, consistent)
candidate-selection target's nonempty list to become empty, the message's
`promptIssued` flag is `true` afterwards (and its list is empty) — regardless
of whether the "next step" prompt was emitted or suppressed by the per-project
cooldown; suppression by the per-message processed set can only occur for an
already-empty list (the consistency hypothesis), in which case no list becomes
empty. -/
theorem C5_promptIssued_on_exhaustion (b : Bool) (cn pid mid : String)
    (l : List CandidateAgent) (st : NState)
    (hpid : pid ≠ "")
    (hl : l ≠ [])
    (hu : UniqueTarget mid l st.messages)
    (hf : l.filter (fun c => c.name ≠ cn) = [])
    (hinv : mid ∈ st.promptedIds →
      ∀ x ∈ st.messages, isTargetMsg mid x = true → x.candidates = some []) :
    ∀ x ∈ (runCandidateAction b true cn pid mid st).messages,
      isTargetMsg mid x = true → x.promptIssued = some true ∧ x.candidates = some [] := by
  obtain ⟨ms1, m, ms2, hdec, htgt, hcand, h1, h2⟩ := hu
  have href : mid ∉ st.promptedIds := by
    intro hmem
    have hx := hinv hmem m
      (by rw [hdec]; exact List.mem_append.mpr (Or.inr (List.mem_cons_self m ms2))) htgt
    rw [hcand] at hx
    injection hx with hx2
    exact hl hx2
  by_cases hcd : pid ∈ st.cooldown
  · rw [action_suppressed_core b cn pid mid l st ms1 ms2 m hpid hcd href hdec htgt hcand
      h1 h2 hf]
    intro x hx ht
    rcases List.mem_append.mp hx with hx | hx
    · rw [h1 x hx] at ht
      exact absurd ht (by simp)
    · rcases List.mem_cons.mp hx with hx | hx
      · rw [hx]
        exact ⟨rfl, rfl⟩
      · rcases List.mem_append.mp hx with hx | hx
        · rw [h2 x hx] at ht
          exact absurd ht (by simp)
        · rw [List.mem_singleton] at hx
          rw [hx, isTarget_actionUserMsg] at ht
          exact absurd ht (by simp)
  · rw [action_prompt_core b cn pid mid l st ms1 ms2 m hpid hcd href hdec htgt hcand
      h1 h2 hf]
    intro x hx ht
    rcases List.mem_append.mp hx with hx | hx
    · rcases List.mem_append.mp hx with hx | hx
      · rw [h1 x hx] at ht
        exact absurd ht (by simp)
      · rcases List.mem_cons.mp hx with hx | hx
        · rw [hx]
          exact ⟨rfl, rfl⟩
        · rcases List.mem_append.mp hx with hx | hx
          · rw [h2 x hx] at ht
            exact absurd ht (by simp)
          · rw [List.mem_singleton] at hx
            rw [hx, isTarget_actionUserMsg] at ht
            exact absurd ht (by simp)
    · rw [List.mem_singleton] at hx
      rw [hx, isTarget_nextStepMessage] at ht
      exact absurd ht (by simp)

/-- Negotiation state for the C5 witness: the project is already in cooldown,
so the exhaustion's prompt is suppressed — `promptIssued` must still be set. -/
def c5WitState : NState :=
  { messages := [c1TargetMsg]
    promptedIds := []
    cooldown := ["p1"]
    pendingExpiries := []
    projects := []
    nextId := 0 }

/-- Witness for C5 at a concrete input with the prompt suppressed by cooldown. -/
theorem C5_promptIssued_witness :
    ((runCandidateAction true true "Alice" "p1" "m1" c5WitState).messages.get
        ⟨0, by decide⟩).promptIssued = some true :=
  (C5_promptIssued_on_exhaustion true "Alice" "p1" "m1" [aliceCandidate] c5WitState
    (by decide) (by decide)
    ⟨[], c1TargetMsg, [], rfl, by decide, rfl,
      fun x hx => absurd hx (List.not_mem_nil x),
      fun x hx => absurd hx (List.not_mem_nil x)⟩
    (by decide)
    (fun hmem => absurd hmem (by decide))
    _ (List.get_mem _ 0 (by decide)) (by decide)).1

end Jarvis
